import Mathlib

/-!
Verification development for a collection of Python ETL scripts
(Proofpoint security-awareness poller `psatv4.py`, Splunk sync scripts,
and CIDR helpers).  The Python functions are shallowly embedded as Lean
definitions over an explicit model of Python scalar values, dictionaries
(association lists with insertion order and in-place overwrite), canonical
JSON serialisation (`json.dumps` with optional `sort_keys`), MD5 digests,
and scripted HTTP response sequences.  Library calls (`requests`,
`psycopg2`, `pandas`, `hashlib`, `json`) are modelled by explicit data:
HTTP traffic is a list of scripted responses, the database is explicit
state, and digests are computed by a full MD5 implementation over Nat.
-/

set_option autoImplicit false

/-! ## Python value model -/

/-- Model of a Python/JSON scalar or container value as it appears in the
scripts: `None`, `bool`, `int`, `str`, `list`, `dict`.  Floats do not occur
on the verified paths; timestamps travel as strings (`json.dumps` is called
with `default=str`). -/
inductive PVal where
  | null
  | b (x : Bool)
  | i (n : Int)
  | s (str : String)
  | list (items : List PVal)
  | dict (entries : List (String × PVal))

/-- Python `v is None` / `pd.isna(v)` check on a model value. -/
def PVal.isNull : PVal → Bool
  | .null => true
  | _ => false

/-- Python dict assignment `d[k] = v`: overwrite in place if the key exists,
otherwise append (insertion order preserved, as in CPython dicts). -/
def dictSet {α : Type} : List (String × α) → String → α → List (String × α)
  | [], k, v => [(k, v)]
  | p :: t, k, v => if p.1 = k then (k, v) :: t else p :: dictSet t k v

/-- Python `d.get(k)` / `k in d`: first (and, for a dict, only) binding. -/
def dictGet? {α : Type} : List (String × α) → String → Option α
  | [], _ => none
  | p :: t, k => if p.1 = k then some p.2 else dictGet? t k

/-- Python `d.update(e)`: assign every binding of `e` into `d` in order. -/
def dictUpdate {α : Type} (d e : List (String × α)) : List (String × α) :=
  e.foldl (fun acc p => dictSet acc p.1 p.2) d

/-! ## json.dumps model -/

/-- One lowercase hexadecimal digit. -/
def hexDigitStr (n : Nat) : String :=
  String.singleton (if n < 10 then Char.ofNat (48 + n) else Char.ofNat (87 + n))

/-- Escaping of a single character inside a JSON string literal, as done by
`json.dumps(..., ensure_ascii=False)`: quote, backslash and control
characters are escaped, everything else is emitted raw. -/
def jsonEscapeChar (c : Char) : String :=
  if c = '"' then "\\\""
  else if c = '\\' then "\\\\"
  else if c = '\n' then "\\n"
  else if c = '\t' then "\\t"
  else if c = '\r' then "\\r"
  else if c.toNat = 8 then "\\b"
  else if c.toNat = 12 then "\\f"
  else if c.toNat < 32 then "\\u00" ++ hexDigitStr (c.toNat / 16) ++ hexDigitStr (c.toNat % 16)
  else String.singleton c

/-- JSON string literal for `str`. -/
def jsonQuote (str : String) : String :=
  "\"" ++ String.join (str.data.map jsonEscapeChar) ++ "\""

/-- Join with the default `json.dumps` item separator. -/
def joinCommaSep : List String → String
  | [] => ""
  | [x] => x
  | x :: t => x ++ ", " ++ joinCommaSep t

/-- Insert a serialised dict entry into a list sorted by key
(Python string comparison is code-point lexicographic). -/
def insertPairSorted (p : String × String) : List (String × String) → List (String × String)
  | [] => [p]
  | q :: t => if p.1 < q.1 then p :: q :: t else q :: insertPairSorted p t

/-- Insertion sort of serialised dict entries by key. -/
def sortPairsByKey (l : List (String × String)) : List (String × String) :=
  l.foldr insertPairSorted []

/-- Key order used by `json.dumps`: sorted when `sort_keys=True`, insertion
order otherwise. -/
def maybeSortPairs (sortKeys : Bool) (l : List (String × String)) : List (String × String) :=
  if sortKeys then sortPairsByKey l else l

mutual

/-- Model of `json.dumps(v, sort_keys=sortKeys, default=str, ensure_ascii=False)`
with the default separators.  Dict entries are serialised first and then
ordered, which agrees with serialising in key order. -/
def pvalDumps (sortKeys : Bool) : PVal → String
  | .null => "null"
  | .b true => "true"
  | .b false => "false"
  | .i n => toString n
  | .s str => jsonQuote str
  | .list items => "[" ++ joinCommaSep (dumpsElems sortKeys items) ++ "]"
  | .dict entries =>
      "\x7b" ++
        joinCommaSep ((maybeSortPairs sortKeys (dumpsEntries sortKeys entries)).map
          (fun kv => jsonQuote kv.1 ++ ": " ++ kv.2)) ++
      "\x7d"

/-- Serialise the elements of a JSON array. -/
def dumpsElems (sortKeys : Bool) : List PVal → List String
  | [] => []
  | v :: t => pvalDumps sortKeys v :: dumpsElems sortKeys t

/-- Serialise the entries of a JSON object, keeping keys for later ordering. -/
def dumpsEntries (sortKeys : Bool) : List (String × PVal) → List (String × String)
  | [] => []
  | p :: t => (p.1, pvalDumps sortKeys p.2) :: dumpsEntries sortKeys t

end

/-! ## UTF-8 and MD5 (hashlib.md5(...).hexdigest()) -/

/-- UTF-8 encoding of one unicode scalar value. -/
def utf8Char (c : Char) : List Nat :=
  let n := c.toNat
  if n < 128 then [n]
  else if n < 2048 then [192 + n / 64, 128 + n % 64]
  else if n < 65536 then [224 + n / 4096, 128 + n / 64 % 64, 128 + n % 64]
  else [240 + n / 262144, 128 + n / 4096 % 64, 128 + n / 64 % 64, 128 + n % 64]

/-- UTF-8 encoding of a string (`s.encode("utf-8")`), as a list of bytes. -/
def utf8Bytes (str : String) : List Nat :=
  (str.data.map utf8Char).flatten

/-- Addition modulo 2^32. -/
def u32add (a b : Nat) : Nat := (a + b) % 4294967296

/-- Bitwise complement on 32-bit words represented as Nat below 2^32. -/
def u32not (x : Nat) : Nat := 4294967295 - x

/-- Left rotation of a 32-bit word. -/
def u32rotl (x sh : Nat) : Nat := x * 2 ^ sh % 4294967296 + x / 2 ^ (32 - sh)

/-- The 64 MD5 round constants, floor(2^32 * abs(sin(i+1))). -/
def md5K : List Nat :=
  [3614090360, 3905402710, 606105819, 3250441966, 4118548399, 1200080426, 2821735955,
   4249261313, 1770035416, 2336552879, 4294925233, 2304563134, 1804603682, 4254626195,
   2792965006, 1236535329, 4129170786, 3225465664, 643717713, 3921069994, 3593408605,
   38016083, 3634488961, 3889429448, 568446438, 3275163606, 4107603335, 1163531501,
   2850285829, 4243563512, 1735328473, 2368359562, 4294588738, 2272392833, 1839030562,
   4259657740, 2763975236, 1272893353, 4139469664, 3200236656, 681279174, 3936430074,
   3572445317, 76029189, 3654602809, 3873151461, 530742520, 3299628645, 4096336452,
   1126891415, 2878612391, 4237533241, 1700485571, 2399980690, 4293915773, 2240044497,
   1873313359, 4264355552, 2734768916, 1309151649, 4149444226, 3174756917, 718787259,
   3951481745]

/-- The 64 MD5 per-round left-rotation amounts. -/
def md5S : List Nat :=
  [7, 12, 17, 22, 7, 12, 17, 22, 7, 12, 17, 22, 7, 12, 17, 22,
   5, 9, 14, 20, 5, 9, 14, 20, 5, 9, 14, 20, 5, 9, 14, 20,
   4, 11, 16, 23, 4, 11, 16, 23, 4, 11, 16, 23, 4, 11, 16, 23,
   6, 10, 15, 21, 6, 10, 15, 21, 6, 10, 15, 21, 6, 10, 15, 21]

/-- MD5 round function F. -/
def md5F (b c d : Nat) : Nat := Nat.lor (Nat.land b c) (Nat.land (u32not b) d)

/-- MD5 round function G. -/
def md5G (b c d : Nat) : Nat := Nat.lor (Nat.land d b) (Nat.land (u32not d) c)

/-- MD5 round function H. -/
def md5H (b c d : Nat) : Nat := Nat.xor (Nat.xor b c) d

/-- MD5 round function I. -/
def md5I (b c d : Nat) : Nat := Nat.xor c (Nat.lor b (u32not d))

/-- One of the 64 MD5 operations on the (a, b, c, d) state; `M` is the
chunk's message-word schedule. -/
def md5Op (M : Nat → Nat) (st : Nat × Nat × Nat × Nat) (idx : Nat) : Nat × Nat × Nat × Nat :=
  match st with
  | (a, b, c, d) =>
    let fg : Nat × Nat :=
      if idx < 16 then (md5F b c d, idx)
      else if idx < 32 then (md5G b c d, (5 * idx + 1) % 16)
      else if idx < 48 then (md5H b c d, (3 * idx + 5) % 16)
      else (md5I b c d, 7 * idx % 16)
    let tmp := u32add (u32add (u32add a fg.1) (md5K.getD idx 0)) (M fg.2)
    (d, u32add b (u32rotl tmp (md5S.getD idx 0)), b, c)

/-- Process one 64-byte chunk of the padded message. -/
def md5Chunk (chunk : List Nat) (st : Nat × Nat × Nat × Nat) : Nat × Nat × Nat × Nat :=
  let M : Nat → Nat := fun j =>
    chunk.getD (4 * j) 0 + 256 * chunk.getD (4 * j + 1) 0 +
      65536 * chunk.getD (4 * j + 2) 0 + 16777216 * chunk.getD (4 * j + 3) 0
  match st, (List.range 64).foldl (md5Op M) st with
  | (a0, b0, c0, d0), (a, b, c, d) => (u32add a0 a, u32add b0 b, u32add c0 c, u32add d0 d)

/-- Little-endian byte decomposition of a number into `k` bytes. -/
def leBytes (k n : Nat) : List Nat :=
  (List.range k).map (fun i => n / 256 ^ i % 256)

/-- MD5 padding: a 1-bit, zeros to 56 mod 64 bytes, then the bit length. -/
def md5Pad (msg : List Nat) : List Nat :=
  msg ++ [128] ++ List.replicate ((119 - msg.length % 64) % 64) 0 ++
    leBytes 8 (8 * msg.length % 2 ^ 64)

/-- The 64-byte chunks of the padded message. -/
def md5Chunks (padded : List Nat) : List (List Nat) :=
  (List.range (padded.length / 64)).map (fun i => (padded.drop (64 * i)).take 64)

/-- MD5 digest of a byte sequence, as 16 bytes. -/
def md5Digest (msg : List Nat) : List Nat :=
  match (md5Chunks (md5Pad msg)).foldl (fun st ch => md5Chunk ch st)
      (1732584193, 4023233417, 2562383102, 271733878) with
  | (a, b, c, d) => leBytes 4 a ++ leBytes 4 b ++ leBytes 4 c ++ leBytes 4 d

/-- Two lowercase hex digits of a byte. -/
def byteHex (b : Nat) : String := hexDigitStr (b / 16) ++ hexDigitStr (b % 16)

/-- Model of `hashlib.md5(s.encode("utf-8")).hexdigest()`. -/
def md5hex (str : String) : String :=
  String.join ((md5Digest (utf8Bytes str)).map byteHex)

/-! ## compute_row_hash (psatv4.py lines 291-294) -/

/-- One step of the payload dict comprehension of `compute_row_hash`:
`\x7bc: (None if pd.isna(row[c]) else row[c]) for c in cols if c in row.index\x7d`. -/
def rowHashStep (row : List (String × PVal)) (acc : List (String × PVal)) (c : String) :
    List (String × PVal) :=
  match dictGet? row c with
  | none => acc
  | some v => dictSet acc c (if v.isNull then PVal.null else v)

/-- The payload dict built by `compute_row_hash` from a record and the list
of hashed columns. -/
def rowHashPayload (row : List (String × PVal)) (cols : List String) : List (String × PVal) :=
  cols.foldl (rowHashStep row) []

/-- Model of `compute_row_hash`: MD5 hexdigest of the canonical JSON
encoding (`sort_keys=True`) of the payload dict. -/
def compute_row_hash (row : List (String × PVal)) (cols : List String) : String :=
  md5hex (pvalDumps true (PVal.dict (rowHashPayload row cols)))

/-! ## Python exceptions and int() -/

/-- A raised Python ValueError, as caught by `except ValueError` handlers. -/
inductive PyErr where
  | valueError (msg : String)
deriving DecidableEq

/-- Python `str(e)` for a caught ValueError. -/
def pyErrStr : PyErr → String
  | .valueError msg => msg

/-- Digit run acceptable to Python `int()` after the optional sign: decimal
digits, with single underscores allowed between digits. -/
def pyDigitsVal : List Char → Option Nat → Option Nat
  | [], acc => acc
  | c :: t, acc =>
    if c.isDigit then pyDigitsVal t (some (acc.getD 0 * 10 + (c.toNat - 48)))
    else if c = '_' then
      match acc, t.head? with
      | some _, some d => if d.isDigit then pyDigitsVal t acc else none
      | _, _ => none
    else none

/-- Model of parsing in Python `int(s)`: strip surrounding whitespace, then
an optional sign followed by a digit run. -/
def pyIntParse (s : String) : Option Int :=
  match ((s.data.dropWhile Char.isWhitespace).reverse.dropWhile Char.isWhitespace).reverse with
  | '+' :: t => (pyDigitsVal t none).map (fun n => (n : Int))
  | '-' :: t => (pyDigitsVal t none).map (fun n => -(n : Int))
  | t => (pyDigitsVal t none).map (fun n => (n : Int))

/-- Python `int(s)` as an expression that may raise ValueError. -/
def pyInt (s : String) : Except PyErr Int :=
  match pyIntParse s with
  | some n => Except.ok n
  | none => Except.error (.valueError ("invalid literal for int() with base 10: '" ++ s ++ "'"))

/-! ## cidr_to_subnet_mask (Tuffin/cidr_mask.py lines 3-18) -/

/-- Python `s.split(sep)` at the character level: split at every occurrence
of the separator, keeping empty pieces. -/
def splitOnChar (c : Char) : List Char → List (List Char)
  | [] => [[]]
  | a :: t =>
    match splitOnChar c t with
    | [] => [[]]
    | h :: r => if a = c then [] :: h :: r else (a :: h) :: r

/-- Python `s.split('/')` on strings. -/
def pySplitStr (s : String) (c : Char) : List String :=
  (splitOnChar c s.data).map String.mk

/-- Python tuple unpacking `a, b = l` of a list: raises ValueError unless
the list has exactly two elements. -/
def unpack2 : List String → Except PyErr (String × String)
  | [a, b] => Except.ok (a, b)
  | l =>
    if l.length < 2 then
      Except.error (.valueError
        ("not enough values to unpack (expected 2, got " ++ toString l.length ++ ")"))
    else Except.error (.valueError "too many values to unpack (expected 2)")

/-- The 32-entry bit list `mask` after the loop sets the first `sfx`
entries to 1. -/
def cidrMaskBits (sfx : Nat) : List Nat :=
  (List.range 32).map (fun i => if i < sfx then 1 else 0)

/-- Value of one octet, `int("".join(mask[i*8:i*8+8]), 2)`. -/
def octetVal (bits : List Nat) : Nat :=
  bits.foldl (fun a b => 2 * a + b) 0

/-- The dotted-decimal mask string produced for an in-range suffix. -/
def maskString (sfx : Nat) : String :=
  String.intercalate "." ((List.range 4).map
    (fun i => toString (octetVal (((cidrMaskBits sfx).drop (8 * i)).take 8))))

/-- The body of `cidr_to_subnet_mask` before the `except ValueError`
handler: unpack the split, convert both parts with `int()`, range-check,
then build the mask. -/
def cidrBody (cidr : String) : Except PyErr String :=
  match unpack2 (pySplitStr cidr '/') with
  | .error e => .error e
  | .ok (p, sfx) =>
    match pyInt p with
    | .error e => .error e
    | .ok pfxVal =>
      match pyInt sfx with
      | .error e => .error e
      | .ok sfxVal =>
        if pfxVal < 0 ∨ 32 < pfxVal ∨ sfxVal < 0 ∨ 32 < sfxVal then
          .error (.valueError "Invalid CIDR notation")
        else .ok (maskString sfxVal.toNat)

/-- Model of `cidr_to_subnet_mask`: the body with every ValueError caught
and returned as its message string (`return str(e)`). -/
def cidr_to_subnet_mask (cidr : String) : String :=
  match cidrBody cidr with
  | .ok m => m
  | .error e => pyErrStr e

/-! ## Paginated API fetch (psatv4.py lines 296-384) -/

/-- One record of an API page as consumed by `extract_attributes`:
`item.get("type")`, `item.get("id")` and the `attributes` dict. -/
structure Item where
  id : Option String
  type_ : Option String
  attributes : List (String × PVal)

/-- One scripted answer of the remote API to a single `session.get`:
either a `requests` exception, or an HTTP response with status code,
optional Retry-After header, the `data` record list and the optional
`links.next` URL of the JSON payload. -/
inductive Resp where
  | reqError
  | http (status : Nat) (retryAfter : Option String) (data : List Item) (next : Option String)

/-- Python truthiness of the optional `seen_id` (`if seen_id and ...`):
None and the empty string are falsy. -/
def seenTruthy : Option String → Bool
  | none => false
  | some str => !(str == "")

/-- Model of `extract_user_tags` (lines 296-308): flatten the `usertags`
dict into numbered per-category columns.  A `usertags` value that is
neither absent, None, nor a dict would raise AttributeError in the source
and is not modelled. -/
def extract_user_tags (attributes : List (String × PVal)) : List (String × PVal) :=
  let ut : List (String × PVal) :=
    match dictGet? attributes "usertags" with
    | some (.dict entries) => entries
    | _ => []
  ut.foldl (fun out cv =>
    let cat := (cv.1.toLower).replace "_1" ""
    match cv.2 with
    | .null => out
    | .list vals =>
        vals.enum.foldl (fun out iv =>
          if iv.2.isNull then out
          else dictSet out (cat ++ "_" ++ toString (iv.1 + 1)) iv.2) out
    | v => dictSet out (cat ++ "_" ++ toString 1) v) []

/-- Build the flat row dict for one API item (lines 362-376): start with
type and id, add scalar attributes, JSON-encode `usertags`, skip other
dict/list values, and for the users report expand the user tags. -/
def rowOfItem (report_type : String) (it : Item) : List (String × PVal) :=
  let row0 : List (String × PVal) :=
    [("type", match it.type_ with | some t => PVal.s t | none => PVal.null),
     ("id", match it.id with | some i => PVal.s i | none => PVal.null)]
  let row1 := it.attributes.foldl (fun row kv =>
    match kv.2 with
    | .dict _ =>
        if kv.1 = "usertags" then dictSet row "usertags" (PVal.s (pvalDumps false kv.2)) else row
    | .list _ =>
        if kv.1 = "usertags" then dictSet row "usertags" (PVal.s (pvalDumps false kv.2)) else row
    | v => dictSet row kv.1 v) row0
  if report_type = "users" ∧ (dictGet? it.attributes "usertags").isSome then
    dictUpdate row1 (extract_user_tags it.attributes)
  else row1

/-- Mutable state of the while-loop in `extract_attributes`, extended with
the observable trace of requested URLs and performed sleeps. -/
structure FetchState where
  nextUrl : String
  page : Nat
  newest : Option String
  extracted : List (List (String × PVal))
  sleeps : List Int
  urls : List String

/-- Initial loop state (lines 324-327). -/
def initFetchState (api_url : String) : FetchState :=
  { nextUrl := api_url ++ "page[size]=8000&filter[_includedeletedusers]=TRUE"
    page := 0
    newest := none
    extracted := []
    sleeps := []
    urls := [] }

/-- Python `int(resp.headers.get("Retry-After", 60))`. -/
def retryAfterSeconds : Option String → Except PyErr Int
  | none => Except.ok 60
  | some str => pyInt str

/-- The stop test of the record loop: `if seen_id and it.get("id") == seen_id`. -/
def stopAtSeen (seen_id : Option String) (it : Item) : Bool :=
  seenTruthy seen_id && it.id == seen_id

/-- The for-loop over one page's items (lines 356-376): append one row per
item, halting with `stop = True` when the previously seen id appears (that
record and everything after it excluded). -/
def processItems (report_type : String) (seen_id : Option String) :
    List Item → List (List (String × PVal)) → List (List (String × PVal)) × Bool
  | [], acc => (acc, false)
  | it :: t, acc =>
      if stopAtSeen seen_id it then (acc, true)
      else processItems report_type seen_id t (acc ++ [rowOfItem report_type it])

/-- The page-number fallback URL built when `links.next` is absent
(line 381). -/
def pageNumberUrl (api_url : String) (page : Nat) : String :=
  api_url ++ "page[number]=" ++ toString page ++
    "&page[size]=8000&filter[_includedeletedusers]=TRUE"

/-- The bookkeeping at the top of each loop iteration: `page += 1` plus
the trace of the URL requested by `session.get(next_url)`. -/
def bumpState (st : FetchState) : FetchState :=
  { st with page := st.page + 1, urls := st.urls ++ [st.nextUrl] }

/-- The while-loop of `extract_attributes`, consuming one scripted response
per `session.get`.  Returns the final state together with the responses
never requested; the only uncaught exception is the ValueError raised by
`int()` on a non-numeric Retry-After header, or by `time.sleep` on a
negative interval. -/
def fetchGo (api_url report_type : String) (seen_id : Option String) :
    List Resp → FetchState → Except PyErr (FetchState × List Resp)
  | [], st => Except.ok (st, [])
  | .reqError :: rest, st => Except.ok (bumpState st, rest)
  | .http status retryAfter data nextLink :: rest, st =>
    let st1 := bumpState st
    if status = 429 then
      match retryAfterSeconds retryAfter with
      | .error e => Except.error e
      | .ok secs =>
          if secs < 0 then Except.error (.valueError "sleep length must be non-negative")
          else fetchGo api_url report_type seen_id rest
            { st1 with sleeps := st1.sleeps ++ [secs] }
    else if status ≠ 200 then Except.ok (st1, rest)
    else if data.isEmpty then Except.ok (st1, rest)
    else
      let st2 := if st1.newest.isNone then { st1 with newest := data.head?.bind Item.id }
        else st1
      match processItems report_type seen_id data st2.extracted with
      | (ext, stop) =>
        let st3 := { st2 with extracted := ext }
        if stop then Except.ok (st3, rest)
        else
          let nu := match nextLink with
            | some u => u
            | none => pageNumberUrl api_url (st3.page + 1)
          fetchGo api_url report_type seen_id rest { st3 with nextUrl := nu }

/-- Model of `extract_attributes` (lines 313-384): run the loop from the
initial state and return `(extracted, newest_id)`. -/
def extract_attributes (api_url report_type : String) (seen_id : Option String)
    (responses : List Resp) : Except PyErr (List (List (String × PVal)) × Option String) :=
  match fetchGo api_url report_type seen_id responses (initFetchState api_url) with
  | .error e => .error e
  | .ok (st, _) => .ok (st.extracted, st.newest)

/-- A scripted response that the loop walks straight through: status 200,
a non-empty record list, and no record matching the stop id. -/
def isCleanPage (seen_id : Option String) : Resp → Bool
  | .reqError => false
  | .http status _ data _ =>
      status == 200 && !data.isEmpty && data.all (fun it => !stopAtSeen seen_id it)

/-- A response on which the loop breaks: a requests exception or a fatal
HTTP status (neither 200 nor 429). -/
def isFatalResp : Resp → Bool
  | .reqError => true
  | .http status _ _ _ => status != 200 && status != 429

/-- The rows contributed by the items of one response. -/
def pageRows (report_type : String) : Resp → List (List (String × PVal))
  | .reqError => []
  | .http _ _ data _ => data.map (rowOfItem report_type)

/-- The effect of one clean page on the loop state (used to state the
clean-prefix lemma about `fetchGo`). -/
def stepCleanPage (api_url report_type : String) (st : FetchState) (r : Resp) : FetchState :=
  match r with
  | .reqError => st
  | .http _ _ data nextLink =>
    let st1 := bumpState st
    let st2 := if st1.newest.isNone then { st1 with newest := data.head?.bind Item.id } else st1
    let st3 := { st2 with extracted := st2.extracted ++ data.map (rowOfItem report_type) }
    { st3 with nextUrl := match nextLink with
        | some u => u
        | none => pageNumberUrl api_url (st3.page + 1) }

/-! ## Row-hash upsert (psatv4.py lines 412-435) -/

/-- One VALUES row of the batched upsert: the "id" key, the computed
row_hash, and the full column dict as it is inserted. -/
structure Rec where
  id : Option String
  row_hash : String
  cols : List (String × PVal)

/-- A stored row of a destination table; the stored row_hash may be NULL
for rows written before row hashing existed (`IS DISTINCT FROM` is
NULL-safe). -/
structure StoredRow where
  id : Option String
  row_hash : Option String
  cols : List (String × PVal)

/-- A destination table as a map from the "id" key to the stored row.
Rows whose id is NULL would make the source's PRIMARY-KEY insert raise and
are modelled as keyed on `none`. -/
def Table : Type := Option String → Option StoredRow

/-- Effect of one VALUES row of `INSERT ... ON CONFLICT ("id") DO UPDATE
SET <all columns>, row_hash = EXCLUDED.row_hash WHERE <table>.row_hash IS
DISTINCT FROM EXCLUDED.row_hash`: insert when the id is absent, overwrite
every column and the row_hash when present with a distinct stored hash,
and leave the row untouched otherwise. -/
def upsertRow (t : Table) (r : Rec) : Table := fun i =>
  if i = r.id then
    match t r.id with
    | none => some ⟨r.id, some r.row_hash, r.cols⟩
    | some w =>
        if w.row_hash = some r.row_hash then some w
        else some ⟨r.id, some r.row_hash, r.cols⟩
  else t i

/-- Model of `upsert_df`: the batched statement processes the VALUES rows
in order (`execute_values` keeps the order, in pages of 1000). -/
def upsert_df (t : Table) (batch : List Rec) : Table :=
  batch.foldl upsertRow t

/-- Replay of the upsert at a single id: how the cell stored under one key
evolves over the batch records carrying that key. -/
def upsertCell (v : Option StoredRow) (r : Rec) : Option StoredRow :=
  match v with
  | none => some ⟨r.id, some r.row_hash, r.cols⟩
  | some w =>
      if w.row_hash = some r.row_hash then some w
      else some ⟨r.id, some r.row_hash, r.cols⟩

/-! ## Watermark state table (psatv4.py lines 179-210) -/

/-- One row of etl_sync_state (report_type TEXT PRIMARY KEY,
last_success_ts TIMESTAMPTZ, last_seen_id TEXT). -/
structure SyncRow where
  report_type : String
  last_success_ts : Nat
  last_seen_id : Option String

/-- Model of `get_last_seen_id`: the last_seen_id of the first row for the
report type; a missing row and a NULL value both give None. -/
def get_last_seen_id : List SyncRow → String → Option String
  | [], _ => none
  | r :: t, rt => if r.report_type = rt then r.last_seen_id else get_last_seen_id t rt

/-- Model of `set_last_seen_id`: `INSERT ... ON CONFLICT (report_type) DO
UPDATE SET last_success_ts = EXCLUDED.last_success_ts, last_seen_id =
EXCLUDED.last_seen_id`; `NOW()` is passed in as the timestamp. -/
def set_last_seen_id : List SyncRow → String → String → Nat → List SyncRow
  | [], rt, lastId, now => [⟨rt, now, some lastId⟩]
  | r :: t, rt, lastId, now =>
      if r.report_type = rt then ⟨rt, now, some lastId⟩ :: t
      else r :: set_last_seen_id t rt lastId now

/-! ## Report shaping and the main sync (psatv4.py lines 386-525) -/

/-- The reporting API base URL (line 37). -/
def BASE_URL : String := "https://results.us.securityeducation.com/api/reporting/v0.3.0/"

/-- The report types synchronised by a run (line 38). -/
def REPORT_TYPES : List String := ["users", "phishing"]

/-- The report-to-table mapping (lines 42-46). -/
def TABLE_MAPPING : String → Option String := fun rt =>
  if rt = "users" then some "Mod_ThreatAwareness_Users"
  else if rt = "phishing" then some "Mod_ThreatAwareness_Phishing"
  else none

/-- Python `str(v)` on the scalar values that occur in shaped rows; a NaN
cell stringifies to "nan" under `.astype(str)`.  Containers never reach
the stringified columns on the verified paths; their repr is abbreviated. -/
def pyStr : PVal → String
  | .null => "nan"
  | .b true => "True"
  | .b false => "False"
  | .i n => toString n
  | .s str => str
  | .list _ => "[...]"
  | .dict _ => "\x7b...\x7d"

/-- The Sao Paulo normalisation (line 400), applied per cell when the
column holds text (the source guards on the column dtype). -/
def fixLocation (row : List (String × PVal)) : List (String × PVal) :=
  match dictGet? row "location_1" with
  | some (.s str) => dictSet row "location_1" (.s (str.replace "São Paulo" "Sao Paulo"))
  | _ => row

/-- A pandas DataFrame column exists when any row carries the key. -/
def hasCol (df : List (List (String × PVal))) (c : String) : Bool :=
  df.any (fun row => (dictGet? row c).isSome)

/-- The users filter (lines 403-405): add the sso_id_email column and drop
the rows whose useremailaddress appears among the sso_id_email values. -/
def usersFilter (sso_domain : String) (df : List (List (String × PVal))) :
    List (List (String × PVal)) :=
  let df2 := df.map (fun row =>
    dictSet row "sso_id_email"
      (.s (pyStr ((dictGet? row "sso_id").getD PVal.null) ++ "@" ++ sso_domain)))
  let emails := df2.map (fun row =>
    match dictGet? row "sso_id_email" with
    | some (.s e) => e
    | _ => "")
  df2.filter (fun row =>
    match dictGet? row "useremailaddress" with
    | some (.s e) => !(emails.contains e)
    | _ => true)

/-- Model of `process_report` (lines 386-407): fetch, then shape the
DataFrame — location normalisation, and the sso_id_email derivation and
filter for the users report when both columns exist. -/
def process_report (report_type : String) (sso_domain : String) (seen_id : Option String)
    (responses : List Resp) :
    Except PyErr (List (List (String × PVal)) × Option String) :=
  let api_url := if report_type = "users" then BASE_URL ++ report_type ++ "?user_tag_enabled&"
    else BASE_URL ++ report_type ++ "?"
  match extract_attributes api_url report_type seen_id responses with
  | .error e => .error e
  | .ok (raw, newest_id) =>
    if raw.isEmpty then .ok ([], newest_id)
    else
      let df := raw.map fixLocation
      let df :=
        if report_type = "users" ∧ hasCol df "useremailaddress" ∧ hasCol df "sso_id" then
          usersFilter sso_domain df
        else df
      .ok (df, newest_id)

/-- The `keep` column lists of DB_SCHEMAS (lines 49-114). -/
def schemaKeep (report_type : String) : List String :=
  if report_type = "phishing" then
    ["id", "type", "eventtype", "eventtimestamp", "senttimestamp", "campaigntype",
     "campaignname", "campaignstatus", "campaignstartdate", "campaignenddate",
     "templatename", "templatesubject", "assessmentsarchived", "autoenrollment",
     "sso_id", "useremailaddress", "userfirstname", "userlastname", "useractiveflag",
     "userdeleteddate", "usertags"]
  else if report_type = "users" then
    ["id", "type", "useremailaddress", "userfirstname", "userlastname", "sso_id",
     "sso_id_email", "department_1", "location_1", "office_location_1",
     "manager_email_address_1", "title_1", "useractiveflag", "userdeleteddate",
     "userlocale", "usertimezone", "datalastupdated"]
  else []

/-- The dtype maps of DB_SCHEMAS. -/
def schemaDtypes (report_type : String) : List (String × String) :=
  if report_type = "phishing" then
    [("eventtimestamp", "timestamp"), ("senttimestamp", "timestamp"),
     ("campaignstartdate", "timestamp"), ("campaignenddate", "timestamp"),
     ("userdeleteddate", "timestamp"), ("assessmentsarchived", "bool"),
     ("autoenrollment", "bool"), ("useractiveflag", "bool")]
  else if report_type = "users" then
    [("userdeleteddate", "timestamp"), ("datalastupdated", "timestamp"),
     ("useractiveflag", "bool")]
  else []

/-- Python `str(v).isdigit()` as used by the bool coercion. -/
def strIsDigit (str : String) : Bool :=
  !str.isEmpty && str.data.all Char.isDigit

/-- Python `int(s)` on an all-digit string. -/
def digitsToNat (str : String) : Nat :=
  str.data.foldl (fun a c => a * 10 + (c.toNat - 48)) 0

/-- Model of `pd.to_datetime(v, errors="coerce", utc=True)` on one cell:
NaN stays NaT; other values are taken as already normalised — calendar
parsing is not modelled, and no verified property depends on it. -/
def toDatetimeUtc (v : PVal) : PVal := v

/-- Model of `coerce_dtype` (lines 246-262) on one cell (floats do not
occur; numeric strings coerce through the integer parser). -/
def coerce_dtype (v : PVal) (target : String) : PVal :=
  if target = "text" then
    match v with
    | .null => .null
    | .s str => .s str
    | w => .s (pyStr w)
  else if target = "int" then
    match v with
    | .i n => .i n
    | .s str => match pyIntParse str with | some n => .i n | none => .null
    | _ => .null
  else if target = "float" then
    match v with
    | .i n => .i n
    | .s str => match pyIntParse str with | some n => .i n | none => .null
    | _ => .null
  else if target = "bool" then
    if v.isNull then .null
    else if strIsDigit (pyStr v) then .b (decide (digitsToNat (pyStr v) ≠ 0))
    else .b (["true", "t", "1", "yes"].contains ((pyStr v).trim.toLower))
  else if target = "timestamp" then
    if v.isNull then .null else toDatetimeUtc v
  else v

/-- Model of `build_db_dataframe` (lines 264-289): select the schema's
keep columns (missing ones become NA), no renames are configured, cast
the dtype-mapped columns, and keep NA cells as None. -/
def build_db_dataframe (report_type : String) (df : List (List (String × PVal))) :
    List (List (String × PVal)) :=
  df.map (fun row =>
    (schemaKeep report_type).map (fun c =>
      let v := (dictGet? row c).getD PVal.null
      match dictGet? (schemaDtypes report_type) c with
      | some target => (c, coerce_dtype v target)
      | none => (c, v)))

/-- The id key under which a shaped row is stored: the "id" column value
(non-string ids, which the PRIMARY KEY insert would reject, key as none). -/
def rowIdKey (row : List (String × PVal)) : Option String :=
  match dictGet? row "id" with
  | some (.s str) => some str
  | _ => none

/-- Turn one shaped row into one VALUES row of the upsert: the hash runs
over every stored column except row_hash (line 455). -/
def mkRec (report_type : String) (row : List (String × PVal)) : Rec :=
  { id := rowIdKey row
    row_hash := compute_row_hash row ((schemaKeep report_type).filter (· ≠ "row_hash"))
    cols := row }

/-- All destination tables, keyed by table name. -/
def TablesState : Type := String → Table

/-- Point update of one destination table. -/
def updateTable (ts : TablesState) (name : String) (f : Table → Table) : TablesState :=
  fun n => if n = name then f (ts n) else ts n

/-- The per-report body of `save_to_postgres_inc` (lines 443-466): skip
unmapped or empty frames, shape to the DB schema, compute row hashes, and
upsert into the (lazily created) table. -/
def saveReport (rt : String) (df : List (List (String × PVal))) (ts : TablesState) :
    TablesState :=
  match TABLE_MAPPING rt with
  | none => ts
  | some table_name =>
      if df.isEmpty then ts
      else
        updateTable ts table_name (fun tbl =>
          upsert_df tbl ((build_db_dataframe rt df).map (mkRec rt)))

/-- Model of `save_to_postgres_inc`: one transactional pass over the
fetched dataframes (the report types write distinct tables, so iteration
order does not affect the final state). -/
def save_to_postgres_inc (dataframes : List (String × List (List (String × PVal))))
    (ts : TablesState) : TablesState :=
  dataframes.foldl (fun ts p => saveReport p.1 p.2 ts) ts

/-- Whole database state: destination tables plus etl_sync_state. -/
structure DBState where
  tables : TablesState
  sync : List SyncRow

/-- Model of `main` (lines 473-525): read the watermarks from the current
state, fetch and shape each report type (a report whose processing raises
is logged and its dataframe replaced by an empty one), upsert all
dataframes, then persist the new watermarks for the reports that fetched
successfully with a truthy newest id.  The worker pool joins before the
write phase; the tasks share no state, so they are serialised here in
REPORT_TYPES order. -/
def mainRun (inp : String → List Resp) (sso_domain : String) (now : Nat) (db : DBState) :
    DBState :=
  let results := REPORT_TYPES.map (fun rt =>
    (rt, process_report rt sso_domain (get_last_seen_id db.sync rt) (inp rt)))
  let dataframes := results.map (fun p =>
    (p.1, match p.2 with
      | .ok (df, _) => df
      | .error _ => ([] : List (List (String × PVal)))))
  let newest := results.filterMap (fun p =>
    match p.2 with
    | .ok (_, nid) => some (p.1, nid)
    | .error _ => none)
  let tables2 := save_to_postgres_inc dataframes db.tables
  let sync2 := newest.foldl (fun s p =>
    match p.2 with
    | some nid => if nid = "" then s else set_last_seen_id s p.1 nid now
    | none => s) db.sync
  { tables := tables2, sync := sync2 }

/-- The destination table name of a mapped report type. -/
def tableNameOf (rt : String) : String := (TABLE_MAPPING rt).getD ""

/-- Concrete scripted responses for the watermark counterexample run: the
users fetch meets the previous watermark on the very first record, the
phishing fetch gets an empty first page. -/
def cInp : String → List Resp := fun rt =>
  if rt = "users" then
    [Resp.http 200 none [⟨some "A5", none, []⟩, ⟨some "A4", none, []⟩] none]
  else [Resp.http 200 none [] none]

/-- Empty destination tables for the counterexample run. -/
def cTables0 : TablesState := fun _ _ => none

/-- Concrete scripted responses for the isolation run: the users fetch
dies on a malformed Retry-After header while the phishing fetch returns
one record. -/
def cInpIso : String → List Resp := fun rt =>
  if rt = "users" then [Resp.http 429 (some "x") [] none]
  else [Resp.http 200 none [⟨some "p1", none, []⟩] none]

/-! ## Config loader (psatv4.py lines 130-160) -/

/-- A parsed INI file: its sections with their key-value entries.  The
base64 layer of `read_config` is transparent at this level — a file whose
content decodes from base64 to INI text and a plain INI file both parse to
this structure (`configparser` itself is not re-modelled). -/
structure IniFile where
  sections : List (String × List (String × String))

/-- The exceptions `read_config` raises (FileNotFoundError and the two
RuntimeError messages). -/
inductive CfgErr where
  | fileNotFound
  | sectionNotFound (sect : String)
  | missingParam (param : String)
deriving DecidableEq

/-- The default SSO domain (line 39). -/
def DEFAULT_SSO_DOMAIN : String := "Org.com"

/-- The sso_domain taken from the optional [app] section (lines 152-154). -/
def ssoOf (ini : IniFile) : String :=
  match dictGet? ini.sections "app" with
  | some appEntries => (dictGet? appEntries "sso_domain").getD DEFAULT_SSO_DOMAIN
  | none => DEFAULT_SSO_DOMAIN

/-- The first missing required DB key, scanned in source order
(lines 157-159). -/
def firstMissingParam (db : List (String × String)) : Option String :=
  (["host", "port", "dbname", "user", "password"].filter
    (fun param => (dictGet? db param).isNone)).head?

/-- Model of `read_config`: existence check, section check, section dict,
forced dbname, sso_domain injection, required-key validation. -/
def read_config (file : Option IniFile) (sect : String) :
    Except CfgErr (List (String × String)) :=
  match file with
  | none => .error .fileNotFound
  | some ini =>
    match dictGet? ini.sections sect with
    | none => .error (.sectionNotFound sect)
    | some entries =>
      let db := dictSet (dictSet entries "dbname" "Highlands_everest") "sso_domain" (ssoOf ini)
      match firstMissingParam db with
      | some param => .error (.missingParam param)
      | none => .ok db

/-- A config file whose postgresql section lacks dbname, for the C8
counterexample. -/
def cIni : IniFile :=
  ⟨[("postgresql", [("host", "h"), ("port", "5432"), ("user", "u"), ("password", "p")])]⟩

/-- A complete config file for the C8 witness. -/
def cIniFull : IniFile :=
  ⟨[("postgresql",
      [("host", "h"), ("port", "5432"), ("dbname", "x"), ("user", "u"), ("password", "p")])]⟩

/-! ## Theorems -/

/-- Building the row-hash payload only inspects the record through
`dictGet?` at the hashed columns. -/
theorem rowHashPayload_congrAux (r1 r2 : List (String × PVal)) :
    ∀ (cols : List String) (acc : List (String × PVal)),
      cols.map (dictGet? r1) = cols.map (dictGet? r2) →
      cols.foldl (rowHashStep r1) acc = cols.foldl (rowHashStep r2) acc := by
  intro cols
  induction cols with
  | nil => intro acc _; rfl
  | cons c t ih =>
      intro acc h
      simp only [List.map] at h
      have hc : dictGet? r1 c = dictGet? r2 c := (List.cons.injEq _ _ _ _ ▸ h).1
      have ht : t.map (dictGet? r1) = t.map (dictGet? r2) := (List.cons.injEq _ _ _ _ ▸ h).2
      simp only [List.foldl]
      have hstep : rowHashStep r1 acc c = rowHashStep r2 acc c := by
        unfold rowHashStep; rw [hc]
      rw [hstep]
      exact ih _ ht

/-- C3: two records that agree (presence and value) on every hashed column
after normalisation get the same digest from `compute_row_hash`, and the
digest is exactly the MD5 of the canonical sorted-keys JSON encoding of
the payload built from the record's column values. -/
theorem compute_row_hash_deterministic (r1 r2 : List (String × PVal)) (cols : List String)
    (h : cols.map (dictGet? r1) = cols.map (dictGet? r2)) :
    compute_row_hash r1 cols = compute_row_hash r2 cols ∧
    compute_row_hash r1 cols = md5hex (pvalDumps true (PVal.dict (rowHashPayload r1 cols))) := by
  constructor
  · unfold compute_row_hash rowHashPayload
    rw [rowHashPayload_congrAux r1 r2 cols [] h]
  · rfl

/-- Witness for C3 at two concrete records that store the same columns in a
different order. -/
theorem compute_row_hash_deterministic_witness :
    ["id", "name"].map (dictGet? [("id", PVal.s "1"), ("name", PVal.s "x")]) =
      ["id", "name"].map (dictGet? [("name", PVal.s "x"), ("id", PVal.s "1")]) ∧
    compute_row_hash [("id", PVal.s "1"), ("name", PVal.s "x")] ["id", "name"] =
      compute_row_hash [("name", PVal.s "x"), ("id", PVal.s "1")] ["id", "name"] :=
  ⟨rfl, (compute_row_hash_deterministic _ _ _ rfl).1⟩

/-- Splitting a list that does not contain the separator yields one piece. -/
theorem splitOnChar_not_mem (c : Char) : ∀ l : List Char, c ∉ l → splitOnChar c l = [l] := by
  intro l
  induction l with
  | nil => intro _; rfl
  | cons a t ih =>
      intro h
      have ha : a ≠ c := fun he => h (he ▸ List.mem_cons_self a t)
      have ht : c ∉ t := fun hm => h (List.mem_cons_of_mem a hm)
      unfold splitOnChar
      rw [ih ht]
      simp [ha]

/-- Splitting around a single separator occurrence yields the two pieces. -/
theorem splitOnChar_sep (c : Char) :
    ∀ l1 l2 : List Char, c ∉ l1 → c ∉ l2 → splitOnChar c (l1 ++ c :: l2) = [l1, l2] := by
  intro l1
  induction l1 with
  | nil =>
      intro l2 _ h2
      simp only [List.nil_append]
      unfold splitOnChar
      rw [splitOnChar_not_mem c l2 h2]
      simp
  | cons a t ih =>
      intro l2 h1 h2
      have ha : a ≠ c := fun he => h1 (he ▸ List.mem_cons_self a t)
      have ht : c ∉ t := fun hm => h1 (List.mem_cons_of_mem a hm)
      simp only [List.cons_append]
      unfold splitOnChar
      rw [ih l2 ht h2]
      simp [ha]

/-- String-level split of `p ++ "/" ++ n` when neither part contains a slash. -/
theorem pySplitStr_sep (p n : String) (hp : '/' ∉ p.data) (hn : '/' ∉ n.data) :
    pySplitStr (p ++ "/" ++ n) '/' = [p, n] := by
  unfold pySplitStr
  have hdata : (p ++ "/" ++ n).data = p.data ++ '/' :: n.data := by
    rw [String.data_append, String.data_append, List.append_assoc]
    rfl
  rw [hdata, splitOnChar_sep '/' p.data n.data hp hn]
  rfl

/-- An element not satisfying the predicate survives `dropWhile`. -/
theorem mem_dropWhile_of_not (q : Char → Bool) (x : Char) (hx : q x = false) :
    ∀ l : List Char, x ∈ l → x ∈ l.dropWhile q := by
  intro l
  induction l with
  | nil => intro h; exact absurd h (List.not_mem_nil x)
  | cons a t ih =>
      intro h
      by_cases ha : q a = true
      · rw [List.dropWhile_cons, if_pos ha]
        rcases List.mem_cons.mp h with he | hm
        · rw [he] at hx; rw [hx] at ha; exact absurd ha (by simp)
        · exact ih hm
      · rw [List.dropWhile_cons, if_neg ha]
        exact h

/-- A digit run containing a dot is rejected. -/
theorem pyDigitsVal_dot : ∀ (l : List Char) (acc : Option Nat), '.' ∈ l → pyDigitsVal l acc = none := by
  intro l
  induction l with
  | nil => intro acc h; exact absurd h (List.not_mem_nil _)
  | cons c t ih =>
      intro acc h
      unfold pyDigitsVal
      by_cases hc : c = '.'
      · subst hc
        have h1 : ('.' : Char).isDigit = false := rfl
        have h2 : ('.' : Char) ≠ '_' := by decide
        simp [h1, h2]
      · have hm : '.' ∈ t := by
          rcases List.mem_cons.mp h with he | hm
          · exact absurd he.symm hc
          · exact hm
        by_cases hd : c.isDigit
        · simp only [hd, if_true]
          exact ih _ hm
        · simp only [hd, Bool.false_eq_true, if_false]
          by_cases hu : c = '_'
          · simp only [hu, if_true]
            rcases acc with _ | a
            · rfl
            · rcases t.head? with _ | d
              · rfl
              · by_cases hdd : d.isDigit
                · simp only [hdd, if_true]
                  exact ih _ hm
                · simp only [hdd, Bool.false_eq_true, if_false]
          · simp [hu]

/-- Python `int()` rejects any string whose text contains a dot. -/
theorem pyIntParse_dot (s : String) (h : '.' ∈ s.data) : pyIntParse s = none := by
  have h1 : '.' ∈ s.data.dropWhile Char.isWhitespace :=
    mem_dropWhile_of_not Char.isWhitespace '.' (by decide) s.data h
  have h2 : '.' ∈ ((s.data.dropWhile Char.isWhitespace).reverse.dropWhile Char.isWhitespace).reverse := by
    rw [List.mem_reverse]
    exact mem_dropWhile_of_not Char.isWhitespace '.' (by decide) _ (List.mem_reverse.mpr h1)
  unfold pyIntParse
  split
  · rename_i t heq
    rw [heq] at h2
    have hm : '.' ∈ t := by
      rcases List.mem_cons.mp h2 with he | hm
      · exact absurd he (by decide)
      · exact hm
    rw [pyDigitsVal_dot t none hm]
    rfl
  · rename_i t heq
    rw [heq] at h2
    have hm : '.' ∈ t := by
      rcases List.mem_cons.mp h2 with he | hm
      · exact absurd he (by decide)
      · exact hm
    rw [pyDigitsVal_dot t none hm]
    rfl
  · rw [pyDigitsVal_dot _ none h2]
    rfl

/-- Every mask string starts with a decimal digit. -/
theorem maskString_head_isDigit :
    ∀ k, k ≤ 32 → (((maskString k).data.head?).getD ' ').isDigit = true := by decide

/-- A mask string differs from any string starting with a non-digit. -/
theorem maskString_ne_of_head (k : Nat) (hk : k ≤ 32) (msg : String)
    (hm : ((msg.data.head?).getD ' ').isDigit = false) : maskString k ≠ msg := by
  intro he
  have h1 := maskString_head_isDigit k hk
  rw [he, hm] at h1
  exact absurd h1 (by simp)

/-- The unpack error messages start with a non-digit. -/
theorem unpack2_error_head (l : List String) (e : PyErr) (h : unpack2 l = Except.error e) :
    (((pyErrStr e).data.head?).getD ' ').isDigit = false := by
  unfold unpack2 at h
  split at h
  · exact absurd h (by simp)
  · split at h
    · have he : e = .valueError ("not enough values to unpack (expected 2, got " ++
          toString l.length ++ ")") := by
        injection h with h'
        exact h'.symm
      rw [he]
      unfold pyErrStr
      rw [String.data_append]
      rfl
    · have he : e = .valueError "too many values to unpack (expected 2)" := by
        injection h with h'
        exact h'.symm
      rw [he]
      rfl

/-- The int() conversion error message starts with a non-digit. -/
theorem pyInt_error_head (t : String) (e : PyErr) (h : pyInt t = Except.error e) :
    (((pyErrStr e).data.head?).getD ' ').isDigit = false := by
  unfold pyInt at h
  split at h
  · exact absurd h (by simp)
  · have he : e = .valueError ("invalid literal for int() with base 10: '" ++ t ++ "'") := by
      injection h with h'
      exact h'.symm
    rw [he]
    unfold pyErrStr
    rw [String.data_append]
    rfl

/-- A successful unpack means the split had exactly two pieces. -/
theorem unpack2_ok (l : List String) (a b : String) (h : unpack2 l = Except.ok (a, b)) :
    l = [a, b] := by
  unfold unpack2 at h
  split at h
  · rename_i a' b'
    injection h with h'
    injection h' with h1 h2
    rw [h1, h2]
  · split at h
    · exact absurd h (by simp)
    · exact absurd h (by simp)

/-- Dissection of the body of `cidr_to_subnet_mask`: either every step
succeeds, the prefix and suffix convert in range and the result is the mask
of the suffix, or the body fails with a ValueError whose text starts with a
non-digit character. -/
theorem cidrBody_dichotomy (s : String) :
    (∃ p n v w, pySplitStr s '/' = [p, n] ∧ pyInt p = Except.ok v ∧ pyInt n = Except.ok w ∧
      0 ≤ v ∧ v ≤ 32 ∧ 0 ≤ w ∧ w ≤ 32 ∧
      cidrBody s = Except.ok (maskString w.toNat)) ∨
    (∃ e, cidrBody s = Except.error e ∧
      (((pyErrStr e).data.head?).getD ' ').isDigit = false) := by
  rcases hb : cidrBody s with e | m
  · right
    refine ⟨e, rfl, ?_⟩
    unfold cidrBody at hb
    split at hb
    · rename_i e' hu
      injection hb with h'
      exact h' ▸ unpack2_error_head _ e' hu
    · split at hb
      · rename_i e' hi
        injection hb with h'
        exact h' ▸ pyInt_error_head _ e' hi
      · split at hb
        · rename_i e' hi
          injection hb with h'
          exact h' ▸ pyInt_error_head _ e' hi
        · split at hb
          · injection hb with h'
            rw [← h']
            rfl
          · exact absurd hb (by simp)
  · left
    unfold cidrBody at hb
    split at hb
    · exact absurd hb (by simp)
    · rename_i pair p sfx hu
      split at hb
      · exact absurd hb (by simp)
      · rename_i pfxVal hp
        split at hb
        · exact absurd hb (by simp)
        · rename_i sfxVal hn
          split at hb
          · exact absurd hb (by simp)
          · rename_i hrange
            push_neg at hrange
            injection hb with h'
            refine ⟨p, sfx, pfxVal, sfxVal, unpack2_ok _ p sfx hu, hp, hn,
              hrange.1, hrange.2.1, hrange.2.2.1, hrange.2.2.2, ?_⟩
            rw [h']

/-- C10: `cidr_to_subnet_mask` never propagates a ValueError: every input
yields either one of the 33 dotted-decimal masks or the message text of the
caught ValueError.  An input of standard CIDR form `A.B.C.D/n` (a dotted
quad before the slash) yields the `int()` conversion error text rather
than a mask, and a mask is returned only when `int()` accepts the part
before the slash with a value between 0 and 32. -/
theorem cidr_to_subnet_mask_spec (s : String) :
    ((∃ k, k ≤ 32 ∧ cidr_to_subnet_mask s = maskString k) ∨
      (∃ e, cidrBody s = Except.error e ∧ cidr_to_subnet_mask s = pyErrStr e)) ∧
    (∀ p n : String, s = p ++ "/" ++ n → '/' ∉ p.data → '/' ∉ n.data → '.' ∈ p.data →
      cidr_to_subnet_mask s = "invalid literal for int() with base 10: '" ++ p ++ "'") ∧
    (∀ k, k ≤ 32 → cidr_to_subnet_mask s = maskString k →
      ∃ p n v, pySplitStr s '/' = [p, n] ∧ pyInt p = Except.ok v ∧ 0 ≤ v ∧ v ≤ 32) := by
  refine ⟨?_, ?_, ?_⟩
  · rcases cidrBody_dichotomy s with ⟨p, n, v, w, hsp, hv, hw, _, _, _, hw32, hok⟩ |
      ⟨e, herr, _⟩
    · left
      refine ⟨w.toNat, Int.toNat_le.mpr hw32, ?_⟩
      unfold cidr_to_subnet_mask
      rw [hok]
    · right
      refine ⟨e, herr, ?_⟩
      unfold cidr_to_subnet_mask
      rw [herr]
  · intro p n hs hp hn hdot
    have hsplit : pySplitStr s '/' = [p, n] := by
      rw [hs]
      exact pySplitStr_sep p n hp hn
    have hint : pyInt p = Except.error (.valueError
        ("invalid literal for int() with base 10: '" ++ p ++ "'")) := by
      unfold pyInt
      rw [pyIntParse_dot p hdot]
    unfold cidr_to_subnet_mask cidrBody
    rw [hsplit]
    simp only [unpack2]
    rw [hint]
    rfl
  · intro k hk hres
    rcases cidrBody_dichotomy s with ⟨p, n, v, w, hsp, hv, hw, h0, h32, _, _, _⟩ |
      ⟨e, herr, hhead⟩
    · exact ⟨p, n, v, hsp, hv, h0, h32⟩
    · exfalso
      unfold cidr_to_subnet_mask at hres
      rw [herr] at hres
      exact maskString_ne_of_head k hk (pyErrStr e) hhead hres.symm

/-- Witness for C10: the dotted-quad CIDR input 10.0.0.0/24 yields the
ValueError text, not a mask. -/
theorem cidr_to_subnet_mask_spec_witness :
    cidr_to_subnet_mask "10.0.0.0/24" = "invalid literal for int() with base 10: '10.0.0.0'" :=
  (cidr_to_subnet_mask_spec "10.0.0.0/24").2.1 "10.0.0.0" "24" rfl (by decide) (by decide)
    (by decide)

/-- Processing a page with no stop hit appends one row per item and does
not stop. -/
theorem processItems_no_stop (report_type : String) (seen_id : Option String) :
    ∀ (items : List Item) (acc : List (List (String × PVal))),
      items.all (fun it => !stopAtSeen seen_id it) = true →
      processItems report_type seen_id items acc =
        (acc ++ items.map (rowOfItem report_type), false) := by
  intro items
  induction items with
  | nil => intro acc _; simp [processItems]
  | cons it t ih =>
      intro acc h
      simp only [List.all_cons, Bool.and_eq_true, Bool.not_eq_true'] at h
      unfold processItems
      rw [h.1]
      simp only [Bool.false_eq_true, if_false]
      rw [ih _ h.2]
      simp

/-- Processing a page whose first stop hit follows the records `bef`
returns exactly the rows of `bef` and stops. -/
theorem processItems_stop (report_type : String) (seen_id : Option String) (hit : Item)
    (hhit : stopAtSeen seen_id hit = true) :
    ∀ (bef aft : List Item) (acc : List (List (String × PVal))),
      bef.all (fun it => !stopAtSeen seen_id it) = true →
      processItems report_type seen_id (bef ++ hit :: aft) acc =
        (acc ++ bef.map (rowOfItem report_type), true) := by
  intro bef
  induction bef with
  | nil =>
      intro aft acc _
      simp only [List.nil_append]
      unfold processItems
      rw [hhit]
      simp
  | cons it t ih =>
      intro aft acc h
      simp only [List.all_cons, Bool.and_eq_true, Bool.not_eq_true'] at h
      simp only [List.cons_append]
      unfold processItems
      rw [h.1]
      simp only [Bool.false_eq_true, if_false]
      rw [ih _ _ h.2]
      simp

/-- The loop walks through one clean page exactly as `stepCleanPage`
describes. -/
theorem fetchGo_clean_cons (api_url report_type : String) (seen_id : Option String)
    (r : Resp) (hclean : isCleanPage seen_id r = true) (rest : List Resp) (st : FetchState) :
    fetchGo api_url report_type seen_id (r :: rest) st =
      fetchGo api_url report_type seen_id rest (stepCleanPage api_url report_type st r) := by
  rcases r with _ | ⟨status, retryAfter, data, nextLink⟩
  · exact absurd hclean (by simp [isCleanPage])
  · simp only [isCleanPage, Bool.and_eq_true, beq_iff_eq, Bool.not_eq_true'] at hclean
    obtain ⟨⟨h200, hne⟩, hall⟩ := hclean
    subst h200
    have hproc : ∀ acc, processItems report_type seen_id data acc =
        (acc ++ data.map (rowOfItem report_type), false) :=
      fun acc => processItems_no_stop report_type seen_id data acc hall
    conv_lhs => rw [fetchGo]
    rw [if_neg (by decide), if_neg (by simp), if_neg (by simp [hne])]
    simp only [hproc]
    simp [stepCleanPage, bumpState]

/-- The loop walks through a prefix of clean pages by folding
`stepCleanPage` over them. -/
theorem fetchGo_clean_pages (api_url report_type : String) (seen_id : Option String) :
    ∀ (pre : List Resp), pre.all (isCleanPage seen_id) = true →
      ∀ (tail : List Resp) (st : FetchState),
        fetchGo api_url report_type seen_id (pre ++ tail) st =
          fetchGo api_url report_type seen_id tail
            (pre.foldl (stepCleanPage api_url report_type) st) := by
  intro pre
  induction pre with
  | nil => intro _ tail st; rfl
  | cons r t ih =>
      intro h tail st
      simp only [List.all_cons, Bool.and_eq_true] at h
      simp only [List.cons_append, List.foldl_cons]
      rw [fetchGo_clean_cons _ _ _ r h.1]
      exact ih h.2 tail _

/-- The rows accumulated over a prefix of clean pages. -/
theorem stepCleanPage_extracted (api_url report_type : String) :
    ∀ (pre : List Resp) (st : FetchState),
      (pre.foldl (stepCleanPage api_url report_type) st).extracted =
        st.extracted ++ (pre.map (pageRows report_type)).flatten := by
  intro pre
  induction pre with
  | nil => intro st; simp
  | cons r t ih =>
      intro st
      simp only [List.foldl_cons, List.map_cons, List.flatten_cons]
      rw [ih]
      rcases r with _ | ⟨status, ra, data, nl⟩
      · simp [stepCleanPage, pageRows]
      · have hext : (stepCleanPage api_url report_type st (Resp.http status ra data nl)).extracted
            = st.extracted ++ data.map (rowOfItem report_type) := by
          simp only [stepCleanPage]
          split <;> simp [bumpState]
        rw [hext]
        simp [pageRows, List.append_assoc]

/-- Hitting the stop id inside a 200 page makes the loop return
immediately with only the rows before the hit appended, leaving the
responses after that page unrequested. -/
theorem fetchGo_stop_page (api_url report_type : String) (seen_id : Option String)
    (ra nextLink : Option String) (bef aft : List Item) (hit : Item)
    (hstop : stopAtSeen seen_id hit = true)
    (hbef : bef.all (fun it => !stopAtSeen seen_id it) = true)
    (post : List Resp) (st : FetchState) :
    ∃ st' : FetchState,
      fetchGo api_url report_type seen_id
        (Resp.http 200 ra (bef ++ hit :: aft) nextLink :: post) st = Except.ok (st', post) ∧
      st'.extracted = st.extracted ++ bef.map (rowOfItem report_type) := by
  have hne : (bef ++ hit :: aft).isEmpty = false := by cases bef <;> rfl
  have hproc : ∀ acc, processItems report_type seen_id (bef ++ hit :: aft) acc =
      (acc ++ bef.map (rowOfItem report_type), true) :=
    fun acc => processItems_stop report_type seen_id hit hstop bef aft acc hbef
  apply Exists.intro
  constructor
  · conv_lhs => rw [fetchGo]
    rw [if_neg (by decide), if_neg (by simp), if_neg (by simp [hne])]
    simp only [hproc]
    rfl
  · split <;> simp [bumpState]

/-- C1 (amended): for every response sequence made of clean pages followed
by a page whose items contain the first occurrence of a non-empty stop id,
the fetch loop returns right after that page (the later responses are
never requested) and the extracted records are exactly the rows of the
earlier pages plus the rows preceding the stop record. -/
theorem extract_attributes_stops_at_seen (api_url report_type sid : String) (hsid : sid ≠ "")
    (pre : List Resp) (hpre : pre.all (isCleanPage (some sid)) = true)
    (ra nextLink : Option String) (bef aft : List Item) (hit : Item)
    (hhit : hit.id = some sid)
    (hbef : bef.all (fun it => !stopAtSeen (some sid) it) = true)
    (post : List Resp) :
    ∃ st : FetchState,
      fetchGo api_url report_type (some sid)
          (pre ++ Resp.http 200 ra (bef ++ hit :: aft) nextLink :: post)
          (initFetchState api_url) = Except.ok (st, post) ∧
      st.extracted =
        (pre.map (pageRows report_type)).flatten ++ bef.map (rowOfItem report_type) ∧
      extract_attributes api_url report_type (some sid)
          (pre ++ Resp.http 200 ra (bef ++ hit :: aft) nextLink :: post) =
        Except.ok (st.extracted, st.newest) := by
  have hstop : stopAtSeen (some sid) hit = true := by
    simp [stopAtSeen, seenTruthy, hhit, hsid]
  obtain ⟨st', hrun, hext⟩ := fetchGo_stop_page api_url report_type (some sid) ra nextLink
    bef aft hit hstop hbef post
    (pre.foldl (stepCleanPage api_url report_type) (initFetchState api_url))
  refine ⟨st', ?_, ?_, ?_⟩
  · rw [fetchGo_clean_pages api_url report_type (some sid) pre hpre]
    exact hrun
  · rw [hext, stepCleanPage_extracted]
    simp [initFetchState]
  · unfold extract_attributes
    rw [fetchGo_clean_pages api_url report_type (some sid) pre hpre, hrun]

/-- Counterexample to C1 as stated: with the stop id "" — which the code's
`if seen_id and ...` truthiness test never matches — a page containing a
record with that very id is ingested whole: the stop record and the record
after it are both returned instead of fetching halting. -/
theorem extract_attributes_empty_stop_counterexample :
    extract_attributes "u?" "users" (some "")
        [Resp.http 200 none [⟨some "", none, []⟩, ⟨some "x", none, []⟩] none] =
      Except.ok ([[("type", PVal.null), ("id", PVal.s "")],
                  [("type", PVal.null), ("id", PVal.s "x")]], some "") ∧
    [("type", PVal.null), ("id", PVal.s "")] ∈
      [[("type", PVal.null), ("id", PVal.s "")], [("type", PVal.null), ("id", PVal.s "x")]] :=
  ⟨rfl, List.mem_cons_self _ _⟩

/-- Witness for C1 at a concrete run: one clean page, then a page holding
the stop id between two other records, then a response that is never
requested. -/
theorem extract_attributes_stops_at_seen_witness :
    ∃ st : FetchState,
      fetchGo "u?" "phishing" (some "A2")
          ([Resp.http 200 none [⟨some "B1", none, []⟩] none] ++
            Resp.http 200 none
              ([⟨some "B2", none, []⟩] ++ ⟨some "A2", none, []⟩ :: [⟨some "B3", none, []⟩])
              none :: [Resp.reqError])
          (initFetchState "u?") = Except.ok (st, [Resp.reqError]) ∧
      st.extracted =
        ([Resp.http 200 none [⟨some "B1", none, []⟩] none].map (pageRows "phishing")).flatten ++
          [⟨some "B2", none, []⟩].map (rowOfItem "phishing") ∧
      extract_attributes "u?" "phishing" (some "A2")
          ([Resp.http 200 none [⟨some "B1", none, []⟩] none] ++
            Resp.http 200 none
              ([⟨some "B2", none, []⟩] ++ ⟨some "A2", none, []⟩ :: [⟨some "B3", none, []⟩])
              none :: [Resp.reqError]) =
        Except.ok (st.extracted, st.newest) :=
  extract_attributes_stops_at_seen "u?" "phishing" "A2" (by decide)
    [Resp.http 200 none [⟨some "B1", none, []⟩] none] (by decide) none none
    [⟨some "B2", none, []⟩] [⟨some "B3", none, []⟩] ⟨some "A2", none, []⟩ rfl (by decide)
    [Resp.reqError]

/-- C4 (amended): on an HTTP 429 whose Retry-After header is absent or a
nonnegative integer string, the loop records a sleep of exactly the header
value (60 when absent) and re-enters the loop with `next_url` unchanged —
the same page is requested again and no exception is raised. -/
theorem fetchGo_429_retries (api_url report_type : String) (seen_id : Option String)
    (ra : Option String) (secs : Int) (hra : retryAfterSeconds ra = Except.ok secs)
    (hpos : 0 ≤ secs) (data : List Item) (nextLink : Option String)
    (rest : List Resp) (st : FetchState) :
    fetchGo api_url report_type seen_id (Resp.http 429 ra data nextLink :: rest) st =
      fetchGo api_url report_type seen_id rest
        { bumpState st with sleeps := (bumpState st).sleeps ++ [secs] } ∧
    ({ bumpState st with sleeps := (bumpState st).sleeps ++ [secs] } : FetchState).nextUrl
        = st.nextUrl ∧
    (ra = none → secs = 60) := by
  refine ⟨?_, rfl, ?_⟩
  · have key : fetchGo api_url report_type seen_id (Resp.http 429 ra data nextLink :: rest) st =
        match retryAfterSeconds ra with
        | .error e => Except.error e
        | .ok secs =>
            if secs < 0 then Except.error (.valueError "sleep length must be non-negative")
            else fetchGo api_url report_type seen_id rest
              { bumpState st with sleeps := (bumpState st).sleeps ++ [secs] } := rfl
    rw [key, hra]
    exact if_neg (Int.not_lt.mpr hpos)
  · intro h
    subst h
    simp only [retryAfterSeconds, Except.ok.injEq] at hra
    exact hra.symm

/-- Counterexample to C4 as stated: a 429 response whose Retry-After header
is not an integer string makes `int()` raise a ValueError that escapes the
fetch loop. -/
theorem extract_attributes_429_counterexample :
    extract_attributes "u?" "users" none [Resp.http 429 (some "tomorrow") [] none] =
      Except.error (PyErr.valueError "invalid literal for int() with base 10: 'tomorrow'") := rfl

/-- Witness for C4 at a concrete 429 with Retry-After 30. -/
theorem fetchGo_429_retries_witness :
    (retryAfterSeconds (some "30") = Except.ok 30 ∧ (0 : Int) ≤ 30) ∧
    (fetchGo "u?" "users" none [Resp.http 429 (some "30") [] none] (initFetchState "u?") =
        fetchGo "u?" "users" none []
          { bumpState (initFetchState "u?") with
              sleeps := (bumpState (initFetchState "u?")).sleeps ++ [30] } ∧
      ({ bumpState (initFetchState "u?") with
          sleeps := (bumpState (initFetchState "u?")).sleeps ++ [30] } : FetchState).nextUrl
            = (initFetchState "u?").nextUrl ∧
      (some "30" = none → (30 : Int) = 60)) :=
  ⟨⟨rfl, by decide⟩,
    fetchGo_429_retries "u?" "users" none (some "30") 30 rfl (by decide) [] none []
      (initFetchState "u?")⟩

/-- A fatal response (requests exception or non-200, non-429 status) makes
the loop break: a normal return carrying the state unchanged except for
the page bookkeeping. -/
theorem fetchGo_fatal_break (api_url report_type : String) (seen_id : Option String)
    (bad : Resp) (hbad : isFatalResp bad = true) (rest : List Resp) (st0 : FetchState) :
    fetchGo api_url report_type seen_id (bad :: rest) st0 = Except.ok (bumpState st0, rest) := by
  rcases bad with _ | ⟨status, ra, data, nl⟩
  · rfl
  · simp only [isFatalResp, Bool.and_eq_true, bne_iff_ne] at hbad
    conv_lhs => rw [fetchGo]
    split
    · rename_i h429
      exact absurd h429 hbad.2
    · split
      · rfl
      · rename_i h200
        exact absurd (not_not.mp h200) hbad.1

/-- C5 (amended): a requests exception or a fatal (non-200, non-429) HTTP
status at any page makes the loop break and return normally — no exception
— with exactly the records accumulated from the earlier pages (empty iff
the failure happens on the first page); the responses after the failing
one are never requested. -/
theorem extract_attributes_after_fatal (api_url report_type : String)
    (seen_id : Option String) (pre : List Resp) (hpre : pre.all (isCleanPage seen_id) = true)
    (bad : Resp) (hbad : isFatalResp bad = true) (rest : List Resp) :
    ∃ st : FetchState,
      fetchGo api_url report_type seen_id (pre ++ bad :: rest) (initFetchState api_url) =
        Except.ok (st, rest) ∧
      st.extracted = (pre.map (pageRows report_type)).flatten ∧
      extract_attributes api_url report_type seen_id (pre ++ bad :: rest) =
        Except.ok ((pre.map (pageRows report_type)).flatten, st.newest) := by
  have hext : (bumpState (pre.foldl (stepCleanPage api_url report_type)
      (initFetchState api_url))).extracted = (pre.map (pageRows report_type)).flatten := by
    show (pre.foldl (stepCleanPage api_url report_type) (initFetchState api_url)).extracted = _
    rw [stepCleanPage_extracted]
    simp [initFetchState]
  refine ⟨bumpState (pre.foldl (stepCleanPage api_url report_type) (initFetchState api_url)),
    ?_, hext, ?_⟩
  · rw [fetchGo_clean_pages api_url report_type seen_id pre hpre]
    exact fetchGo_fatal_break api_url report_type seen_id bad hbad rest _
  · unfold extract_attributes
    rw [fetchGo_clean_pages api_url report_type seen_id pre hpre,
      fetchGo_fatal_break api_url report_type seen_id bad hbad rest _, ← hext]

/-- Counterexample to C5 as stated: a request exception on page 2 after a
successful page 1 surfaces the page-1 records, not an empty result list. -/
theorem extract_attributes_failure_counterexample :
    extract_attributes "u?" "users" none
        [Resp.http 200 none [⟨some "1", some "users", []⟩] none, Resp.reqError] =
      Except.ok ([[("type", PVal.s "users"), ("id", PVal.s "1")]], some "1") ∧
    [[("type", PVal.s "users"), ("id", PVal.s "1")]] ≠
      ([] : List (List (String × PVal))) :=
  ⟨rfl, by simp⟩

/-- Witness for C5 at a concrete run: one clean page, then a 500, then a
response that is never requested. -/
theorem extract_attributes_after_fatal_witness :
    ∃ st : FetchState,
      fetchGo "u?" "users" none
          ([Resp.http 200 none [⟨some "1", none, []⟩] none] ++ Resp.http 500 none [] none ::
            [Resp.reqError]) (initFetchState "u?") = Except.ok (st, [Resp.reqError]) ∧
      st.extracted =
        ([Resp.http 200 none [⟨some "1", none, []⟩] none].map (pageRows "users")).flatten ∧
      extract_attributes "u?" "users" none
          ([Resp.http 200 none [⟨some "1", none, []⟩] none] ++ Resp.http 500 none [] none ::
            [Resp.reqError]) =
        Except.ok
          (([Resp.http 200 none [⟨some "1", none, []⟩] none].map (pageRows "users")).flatten,
            st.newest) :=
  extract_attributes_after_fatal "u?" "users" none
    [Resp.http 200 none [⟨some "1", none, []⟩] none] (by decide)
    (Resp.http 500 none [] none) (by decide) [Resp.reqError]

/-- One upsert step at the looked-up key is the per-id cell step. -/
theorem upsertRow_lookup (t : Table) (r : Rec) (i : Option String) :
    upsertRow t r i = if r.id = i then upsertCell (t i) r else t i := by
  unfold upsertRow upsertCell
  by_cases hid : i = r.id
  · subst hid
    rw [if_pos rfl]
  · rw [if_neg hid, if_neg (fun hh => hid hh.symm)]

/-- The batched upsert at one key replays the batch records carrying that
key over the stored cell. -/
theorem upsert_df_lookup : ∀ (batch : List Rec) (t : Table) (i : Option String),
    upsert_df t batch i = (batch.filter (fun r => r.id == i)).foldl upsertCell (t i) := by
  intro batch
  induction batch with
  | nil => intro t i; rfl
  | cons r tail ih =>
      intro t i
      have hstep : upsert_df t (r :: tail) = upsert_df (upsertRow t r) tail := rfl
      rw [hstep, ih, List.filter_cons]
      by_cases hid : r.id = i
      · rw [if_pos (by simp [hid]), List.foldl_cons]
        rw [upsertRow_lookup, if_pos hid]
      · rw [if_neg (by simp [hid])]
        rw [upsertRow_lookup, if_neg hid]

/-- A cell step always yields a stored row. -/
theorem upsertCell_step_some (v : Option StoredRow) (r : Rec) :
    ∃ w, upsertCell v r = some w := by
  rcases v with _ | x
  · exact ⟨_, rfl⟩
  · by_cases hx : x.row_hash = some r.row_hash
    · exact ⟨x, by simp [upsertCell, hx]⟩
    · exact ⟨⟨r.id, some r.row_hash, r.cols⟩, by simp [upsertCell, hx]⟩

/-- Replaying a batch from a stored row yields a stored row. -/
theorem upsertCell_isSome : ∀ (l : List Rec) (w : StoredRow),
    ∃ w', l.foldl upsertCell (some w) = some w' := by
  intro l
  induction l with
  | nil => intro w; exact ⟨w, rfl⟩
  | cons r t ih =>
      intro w
      simp only [List.foldl_cons]
      by_cases hw : w.row_hash = some r.row_hash
      · rw [show upsertCell (some w) r = some w from by simp [upsertCell, hw]]
        exact ih w
      · rw [show upsertCell (some w) r = some ⟨r.id, some r.row_hash, r.cols⟩ from by
          simp [upsertCell, hw]]
        exact ih _

/-- Two stored rows with equal hashes either converge under the replay or
are both fixed by it. -/
theorem upsertCell_hash_congr : ∀ (l : List Rec) (x y : StoredRow),
    x.row_hash = y.row_hash →
    l.foldl upsertCell (some x) = l.foldl upsertCell (some y) ∨
      (l.foldl upsertCell (some x) = some x ∧ l.foldl upsertCell (some y) = some y) := by
  intro l
  induction l with
  | nil => intro x y _; right; exact ⟨rfl, rfl⟩
  | cons r t ih =>
      intro x y h
      simp only [List.foldl_cons]
      by_cases hx : x.row_hash = some r.row_hash
      · have hy : y.row_hash = some r.row_hash := h ▸ hx
        rw [show upsertCell (some x) r = some x from by simp [upsertCell, hx],
            show upsertCell (some y) r = some y from by simp [upsertCell, hy]]
        exact ih x y h
      · have hy : ¬y.row_hash = some r.row_hash := fun hh => hx (h.symm ▸ hh)
        rw [show upsertCell (some x) r = some ⟨r.id, some r.row_hash, r.cols⟩ from by
              simp [upsertCell, hx],
            show upsertCell (some y) r = some ⟨r.id, some r.row_hash, r.cols⟩ from by
              simp [upsertCell, hy]]
        left
        rfl

/-- The stored row produced by one replay is a fixed point of a second
replay of the same records. -/
theorem upsertCell_fix : ∀ (l : List Rec) (v : Option StoredRow) (w : StoredRow),
    l.foldl upsertCell v = some w → l.foldl upsertCell (some w) = some w := by
  intro l
  induction l with
  | nil =>
      intro v w _
      rfl
  | cons r t ih =>
      intro v w h
      simp only [List.foldl_cons] at h ⊢
      by_cases hw : w.row_hash = some r.row_hash
      · rw [show upsertCell (some w) r = some w from by simp [upsertCell, hw]]
        exact ih _ w h
      · rw [show upsertCell (some w) r = some ⟨r.id, some r.row_hash, r.cols⟩ from by
          simp [upsertCell, hw]]
        rcases v with _ | x
        · simpa [upsertCell] using h
        · by_cases hx : x.row_hash = some r.row_hash
          · rw [show upsertCell (some x) r = some x from by simp [upsertCell, hx]] at h
            rcases upsertCell_hash_congr t x ⟨r.id, some r.row_hash, r.cols⟩ (by simpa using hx)
              with heq | ⟨hfix1, _⟩
            · rw [← heq]
              exact h
            · rw [hfix1] at h
              injection h with h'
              exact absurd (h' ▸ hx) hw
          · rw [show upsertCell (some x) r = some ⟨r.id, some r.row_hash, r.cols⟩ from by
              simp [upsertCell, hx]] at h
            exact h

/-- Replaying the batch records of one key twice equals replaying once. -/
theorem upsertCell_idem (l : List Rec) (v : Option StoredRow) :
    l.foldl upsertCell (l.foldl upsertCell v) = l.foldl upsertCell v := by
  rcases l with _ | ⟨r, t⟩
  · rfl
  · obtain ⟨w0, hw0⟩ := upsertCell_step_some v r
    obtain ⟨w, hw⟩ := upsertCell_isSome t w0
    have hfull : (r :: t).foldl upsertCell v = some w := by
      simp only [List.foldl_cons, hw0]
      exact hw
    rw [hfull]
    exact upsertCell_fix (r :: t) v w hfull

/-- C2: applying the batched upsert a second time with the same batch
leaves the destination table exactly in the state after the first
application: on the second pass every conflicting row's stored row_hash is
no longer distinct from the excluded hash, or the update rewrites the same
values, so no row changes. -/
theorem upsert_df_idempotent (t : Table) (batch : List Rec) :
    upsert_df (upsert_df t batch) batch = upsert_df t batch := by
  funext i
  rw [upsert_df_lookup, upsert_df_lookup]
  exact upsertCell_idem _ _

/-- Any report_type present after `set_last_seen_id` was present before or
is the written one. -/
theorem set_last_seen_id_types_subset (rt lastId : String) (now : Nat) :
    ∀ (tbl : List SyncRow) (x : String),
      x ∈ (set_last_seen_id tbl rt lastId now).map SyncRow.report_type →
      x ∈ tbl.map SyncRow.report_type ∨ x = rt := by
  intro tbl
  induction tbl with
  | nil =>
      intro x hx
      simp only [set_last_seen_id, List.map_cons, List.map_nil] at hx
      rcases List.mem_cons.mp hx with he | hm
      · exact Or.inr he
      · exact absurd hm (List.not_mem_nil x)
  | cons r t ih =>
      intro x hx
      by_cases hr : r.report_type = rt
      · simp only [set_last_seen_id, if_pos hr, List.map_cons] at hx
        rcases List.mem_cons.mp hx with he | hm
        · exact Or.inr he
        · exact Or.inl (List.mem_cons_of_mem _ hm)
      · simp only [set_last_seen_id, if_neg hr, List.map_cons] at hx
        rcases List.mem_cons.mp hx with he | hm
        · exact Or.inl (he ▸ List.mem_cons_self _ _)
        · rcases ih x hm with h1 | h2
          · exact Or.inl (List.mem_cons_of_mem _ h1)
          · exact Or.inr h2

/-- C9: etl_sync_state keeps at most one row per report_type: when the
stored report types are pairwise distinct, `set_last_seen_id` keeps them
pairwise distinct, every row for the written report type equals the one
freshly written row (overwrite, no historisation), reading the watermark
back yields the written id, the row count does not grow when the type was
already present, and rows of other report types are untouched. -/
theorem set_last_seen_id_invariant (tbl : List SyncRow) (rt lastId : String) (now : Nat)
    (hnodup : (tbl.map SyncRow.report_type).Nodup) :
    ((set_last_seen_id tbl rt lastId now).map SyncRow.report_type).Nodup ∧
    (∀ row ∈ set_last_seen_id tbl rt lastId now,
        row.report_type = rt → row = ⟨rt, now, some lastId⟩) ∧
    get_last_seen_id (set_last_seen_id tbl rt lastId now) rt = some lastId ∧
    (rt ∈ tbl.map SyncRow.report_type →
        (set_last_seen_id tbl rt lastId now).length = tbl.length) ∧
    (∀ row ∈ tbl, row.report_type ≠ rt → row ∈ set_last_seen_id tbl rt lastId now) := by
  induction tbl with
  | nil =>
      refine ⟨by simp [set_last_seen_id], ?_, by simp [set_last_seen_id, get_last_seen_id],
        by simp, by simp⟩
      intro row hrow _
      simp only [set_last_seen_id, List.mem_singleton] at hrow
      exact hrow
  | cons r t ih =>
      simp only [List.map_cons, List.nodup_cons] at hnodup
      obtain ⟨hnotin, hnd⟩ := hnodup
      obtain ⟨ih1, ih2, ih3, ih4, ih5⟩ := ih hnd
      by_cases hr : r.report_type = rt
      · refine ⟨?_, ?_, ?_, ?_, ?_⟩
        · simp only [set_last_seen_id, if_pos hr, List.map_cons, List.nodup_cons]
          exact ⟨hr ▸ hnotin, hnd⟩
        · intro row hrow hrt
          simp only [set_last_seen_id, if_pos hr] at hrow
          rcases List.mem_cons.mp hrow with he | hm
          · exact he
          · have hmem : row.report_type ∈ t.map SyncRow.report_type :=
              List.mem_map_of_mem SyncRow.report_type hm
            exact absurd (hrt ▸ hmem) (hr ▸ hnotin)
        · simp [set_last_seen_id, if_pos hr, get_last_seen_id]
        · intro _
          simp only [set_last_seen_id, if_pos hr, List.length_cons]
        · intro row hrow hne
          simp only [set_last_seen_id, if_pos hr]
          rcases List.mem_cons.mp hrow with he | hm
          · exact absurd (he ▸ hr) hne
          · exact List.mem_cons_of_mem _ hm
      · refine ⟨?_, ?_, ?_, ?_, ?_⟩
        · simp only [set_last_seen_id, if_neg hr, List.map_cons, List.nodup_cons]
          refine ⟨?_, ih1⟩
          intro hmem
          rcases set_last_seen_id_types_subset rt lastId now t r.report_type hmem with h1 | h2
          · exact hnotin h1
          · exact hr h2
        · intro row hrow hrt
          simp only [set_last_seen_id, if_neg hr] at hrow
          rcases List.mem_cons.mp hrow with he | hm
          · exact absurd (he ▸ hrt) hr
          · exact ih2 row hm hrt
        · simp only [set_last_seen_id, if_neg hr, get_last_seen_id, if_neg hr]
          exact ih3
        · intro hmem
          rcases List.mem_cons.mp hmem with he | hm
          · exact absurd he.symm hr
          · simp only [set_last_seen_id, if_neg hr, List.length_cons, ih4 hm]
        · intro row hrow hne
          simp only [set_last_seen_id, if_neg hr]
          rcases List.mem_cons.mp hrow with he | hm
          · exact he ▸ List.mem_cons_self _ _
          · exact List.mem_cons_of_mem _ (ih5 row hm hne)

/-- Witness for C9 on a concrete two-row state table. -/
theorem set_last_seen_id_invariant_witness :
    ((set_last_seen_id [⟨"users", 1, some "a"⟩, ⟨"phishing", 2, none⟩] "users" "b" 5).map
        SyncRow.report_type).Nodup ∧
    get_last_seen_id
        (set_last_seen_id [⟨"users", 1, some "a"⟩, ⟨"phishing", 2, none⟩] "users" "b" 5)
        "users" = some "b" ∧
    (set_last_seen_id [⟨"users", 1, some "a"⟩, ⟨"phishing", 2, none⟩] "users" "b" 5).length =
      ([⟨"users", 1, some "a"⟩, ⟨"phishing", 2, none⟩] : List SyncRow).length := by
  have h := set_last_seen_id_invariant [⟨"users", 1, some "a"⟩, ⟨"phishing", 2, none⟩]
    "users" "b" 5 (by decide)
  exact ⟨h.1, h.2.2.1, h.2.2.2.1 (by decide)⟩

/-- Reading back the watermark just written yields the written id. -/
theorem get_set_same : ∀ (s : List SyncRow) (rt i : String) (n : Nat),
    get_last_seen_id (set_last_seen_id s rt i n) rt = some i := by
  intro s
  induction s with
  | nil => intro rt i n; simp [set_last_seen_id, get_last_seen_id]
  | cons r t ih =>
      intro rt i n
      by_cases hr : r.report_type = rt
      · simp [set_last_seen_id, hr, get_last_seen_id]
      · simp [set_last_seen_id, hr, get_last_seen_id, ih]

/-- Writing one report type's watermark leaves other types' reads alone. -/
theorem get_set_other : ∀ (s : List SyncRow) (rt' rt i : String) (n : Nat), rt' ≠ rt →
    get_last_seen_id (set_last_seen_id s rt' i n) rt = get_last_seen_id s rt := by
  intro s
  induction s with
  | nil => intro rt' rt i n hne; simp [set_last_seen_id, get_last_seen_id, hne]
  | cons r t ih =>
      intro rt' rt i n hne
      by_cases hr : r.report_type = rt'
      · have hrrt : ¬r.report_type = rt := fun hh => hne (hr ▸ hh)
        simp [set_last_seen_id, hr, get_last_seen_id, hne, hrrt]
      · by_cases hrrt : r.report_type = rt
        · have hcond : ¬rt = rt' := fun hh => hne hh.symm
          simp [set_last_seen_id, hr, get_last_seen_id, hrrt, hcond]
        · simp [set_last_seen_id, hr, get_last_seen_id, hrrt, ih rt' rt i n hne]

/-- Once `newest_id` is set, the fetch loop never changes it. -/
theorem fetchGo_newest_mono (api_url report_type : String) (seen_id : Option String)
    (i : String) :
    ∀ (rs : List Resp) (st : FetchState), st.newest = some i →
      ∀ (st' : FetchState) (rem : List Resp),
        fetchGo api_url report_type seen_id rs st = Except.ok (st', rem) →
        st'.newest = some i := by
  intro rs
  induction rs with
  | nil =>
      intro st hst st' rem h
      injection h with h1
      injection h1 with h2 h3
      rw [← h2]
      exact hst
  | cons r rest ih =>
      intro st hst st' rem h
      rcases r with _ | ⟨status, ra, data, nl⟩
      · rw [fetchGo] at h
        injection h with h1
        injection h1 with h2 h3
        rw [← h2]
        exact hst
      · rw [fetchGo] at h
        split at h
        · split at h
          · exact absurd h (by simp)
          · split at h
            · exact absurd h (by simp)
            · refine ih _ ?_ st' rem h
              exact hst
        · split at h
          · injection h with h1
            injection h1 with h2 h3
            rw [← h2]
            exact hst
          · split at h
            · injection h with h1
              injection h1 with h2 h3
              rw [← h2]
              exact hst
            · have hfalse : (bumpState st).newest.isNone = false := by
                simp [bumpState, hst]
              simp only [hfalse, Bool.false_eq_true, if_false] at h
              rcases hpi : processItems report_type seen_id data (bumpState st).extracted
                with ⟨ext, stop⟩
              simp only [hpi] at h
              split at h
              · injection h with h1
                injection h1 with h2 h3
                rw [← h2]
                exact hst
              · refine ih _ ?_ st' rem h
                exact hst

/-- The first (non-empty, 200) page fixes `newest_id` to the id of its
first record: whatever happens later, a successful fetch reports it. -/
theorem extract_attributes_newest_first (api_url report_type : String)
    (seen_id : Option String) (ra : Option String) (it : Item) (its : List Item)
    (nl : Option String) (rest : List Resp) (i : String) (hid : it.id = some i)
    (res : List (List (String × PVal))) (nid : Option String)
    (hok : extract_attributes api_url report_type seen_id
        (Resp.http 200 ra (it :: its) nl :: rest) = Except.ok (res, nid)) :
    nid = some i := by
  unfold extract_attributes at hok
  rcases hrun : fetchGo api_url report_type seen_id
      (Resp.http 200 ra (it :: its) nl :: rest) (initFetchState api_url) with e | p
  · rw [hrun] at hok
    exact absurd hok (by simp)
  · rw [hrun] at hok
    rcases p with ⟨stf, rem⟩
    have hnid : nid = stf.newest := by
      injection hok with h1
      injection h1 with h2 h3
      exact h3.symm
    rw [hnid]
    rw [fetchGo] at hrun
    split at hrun
    · rename_i h429
      exact absurd h429 (by decide)
    · split at hrun
      · rename_i hne200
        exact absurd rfl hne200
      · split at hrun
        · rename_i hempty
          exact absurd hempty (by simp)
        · have htrue : (bumpState (initFetchState api_url)).newest.isNone = true := by
            simp [bumpState, initFetchState]
          simp only [htrue, if_true] at hrun
          rcases hpi : processItems report_type seen_id (it :: its)
              (bumpState (initFetchState api_url)).extracted with ⟨ext, stop⟩
          simp only [hpi] at hrun
          split at hrun
          · injection hrun with h1
            injection h1 with h2 h3
            rw [← h2]
            show (it :: its).head?.bind Item.id = some i
            simp [hid]
          · refine fetchGo_newest_mono api_url report_type seen_id i rest _ ?_ stf rem hrun
            show (it :: its).head?.bind Item.id = some i
            simp [hid]

/-- Counterexample to C6 as stated: the stored last_seen_id is the id of
the first record of the first page — which here equals the previous
watermark, so the run fetches nothing and writes nothing to any
destination table, yet still rewrites the watermark row (fresh timestamp,
same id).  The stored id is therefore not an id of a record this run both
fetched and wrote. -/
theorem mainRun_watermark_counterexample :
    (mainRun cInp "Org.com" 5 ⟨cTables0, [⟨"users", 1, some "A5"⟩]⟩).tables = cTables0 ∧
    (mainRun cInp "Org.com" 5 ⟨cTables0, [⟨"users", 1, some "A5"⟩]⟩).sync =
      [⟨"users", 5, some "A5"⟩] ∧
    ([⟨"users", 5, some "A5"⟩] : List SyncRow) ≠ [⟨"users", 1, some "A5"⟩] :=
  ⟨rfl, rfl, by simp⟩

/-- A successful process_report whose first response is a non-empty 200
page reports that page's first record id as newest_id. -/
theorem process_report_newest (report_type sso_domain : String) (seen : Option String)
    (ra : Option String) (it : Item) (its : List Item) (nl : Option String)
    (rest : List Resp) (i : String) (hid : it.id = some i)
    (df : List (List (String × PVal))) (nid : Option String)
    (hp : process_report report_type sso_domain seen
        (Resp.http 200 ra (it :: its) nl :: rest) = Except.ok (df, nid)) :
    nid = some i := by
  simp only [process_report] at hp
  split at hp
  · exact absurd hp (by simp)
  · rename_i x raw newest heq
    have hnn : nid = newest := by
      split at hp
      · injection hp with h1
        injection h1 with h2 h3
        exact h3.symm
      · injection hp with h1
        injection h1 with h2 h3
        exact h3.symm
    rw [hnn]
    exact extract_attributes_newest_first _ report_type seen ra it its nl rest i hid
      raw newest heq

/-- C6 (amended): the watermark a run stores for a report type is the id
of the first record of the first (non-empty, 200) page the API returned
for it — the newest id as reported — provided its processing succeeds and
the id is truthy.  The previous watermark is read from the pre-run state
(visible as the seen id passed to process_report) and the new one is
written only into the post-run state.  The stored id need not be a record
this run wrote to the destination table. -/
theorem mainRun_watermark (inp : String → List Resp) (sso_domain : String) (now : Nat)
    (db : DBState) (rt : String) (hrt : rt ∈ REPORT_TYPES)
    (ra : Option String) (it : Item) (its : List Item) (nl : Option String)
    (rest : List Resp)
    (hfirst : inp rt = Resp.http 200 ra (it :: its) nl :: rest)
    (i : String) (hid : it.id = some i) (hi : i ≠ "")
    (df : List (List (String × PVal))) (nid : Option String)
    (hp : process_report rt sso_domain (get_last_seen_id db.sync rt) (inp rt) =
      Except.ok (df, nid)) :
    nid = some i ∧
    get_last_seen_id (mainRun inp sso_domain now db).sync rt = some i := by
  rw [hfirst] at hp
  have hnid : nid = some i :=
    process_report_newest rt sso_domain _ ra it its nl rest i hid df nid hp
  refine ⟨hnid, ?_⟩
  have hp' : process_report rt sso_domain (get_last_seen_id db.sync rt) (inp rt) =
      Except.ok (df, some i) := by rw [hfirst, hp, hnid]
  simp only [REPORT_TYPES, List.mem_cons, List.mem_singleton] at hrt
  rcases hrt with h | h | h
  case inr.inr => exact absurd h (List.not_mem_nil rt)
  · subst h
    rcases hq : process_report "phishing" sso_domain (get_last_seen_id db.sync "phishing")
        (inp "phishing") with e2 | ⟨df2, nid2⟩
    · simp only [mainRun, REPORT_TYPES, List.map_cons, List.map_nil, List.filterMap_cons,
        List.filterMap_nil, hp', hq, List.foldl_cons, List.foldl_nil]
      rw [if_neg hi]
      exact get_set_same db.sync "users" i now
    · rcases nid2 with _ | j
      · simp only [mainRun, REPORT_TYPES, List.map_cons, List.map_nil, List.filterMap_cons,
          List.filterMap_nil, hp', hq, List.foldl_cons, List.foldl_nil]
        rw [if_neg hi]
        exact get_set_same db.sync "users" i now
      · by_cases hj : j = ""
        · simp only [mainRun, REPORT_TYPES, List.map_cons, List.map_nil, List.filterMap_cons,
            List.filterMap_nil, hp', hq, List.foldl_cons, List.foldl_nil]
          rw [if_neg hi, if_pos hj]
          exact get_set_same db.sync "users" i now
        · simp only [mainRun, REPORT_TYPES, List.map_cons, List.map_nil, List.filterMap_cons,
            List.filterMap_nil, hp', hq, List.foldl_cons, List.foldl_nil]
          rw [if_neg hi, if_neg hj]
          rw [get_set_other _ "phishing" "users" j now (by decide)]
          exact get_set_same db.sync "users" i now
  · subst h
    rcases hq : process_report "users" sso_domain (get_last_seen_id db.sync "users")
        (inp "users") with e2 | ⟨df2, nid2⟩
    · simp only [mainRun, REPORT_TYPES, List.map_cons, List.map_nil, List.filterMap_cons,
        List.filterMap_nil, hp', hq, List.foldl_cons, List.foldl_nil]
      rw [if_neg hi]
      exact get_set_same db.sync "phishing" i now
    · rcases nid2 with _ | j
      · simp only [mainRun, REPORT_TYPES, List.map_cons, List.map_nil, List.filterMap_cons,
          List.filterMap_nil, hp', hq, List.foldl_cons, List.foldl_nil]
        rw [if_neg hi]
        exact get_set_same db.sync "phishing" i now
      · by_cases hj : j = ""
        · simp only [mainRun, REPORT_TYPES, List.map_cons, List.map_nil, List.filterMap_cons,
            List.filterMap_nil, hp', hq, List.foldl_cons, List.foldl_nil]
          rw [if_pos hj, if_neg hi]
          exact get_set_same db.sync "phishing" i now
        · simp only [mainRun, REPORT_TYPES, List.map_cons, List.map_nil, List.filterMap_cons,
            List.filterMap_nil, hp', hq, List.foldl_cons, List.foldl_nil]
          rw [if_neg hj, if_neg hi]
          rw [get_set_same]

/-- Witness for C6: a fresh run (no previous watermark) over a single
one-record users page stores that record's id as the users watermark. -/
theorem mainRun_watermark_witness :
    (some "u1" : Option String) = some "u1" ∧
    get_last_seen_id
        (mainRun
          (fun rt => if rt = "users"
            then [Resp.http 200 none [⟨some "u1", none, []⟩] none]
            else [Resp.http 200 none [] none])
          "Org.com" 7 ⟨cTables0, []⟩).sync "users" = some "u1" :=
  mainRun_watermark
    (fun rt => if rt = "users"
      then [Resp.http 200 none [⟨some "u1", none, []⟩] none]
      else [Resp.http 200 none [] none])
    "Org.com" 7 ⟨cTables0, []⟩ "users" (by decide) none ⟨some "u1", none, []⟩ [] none []
    rfl "u1" rfl (by decide) [[("type", PVal.null), ("id", PVal.s "u1")]] (some "u1") rfl

/-- C7: when one report type's processing raises, the exception is caught
at the gather loop and that report's dataframe replaced by an empty one,
so its destination table and watermark stay untouched, while the other
report type is still fetched and upserted to its own destination table. -/
theorem mainRun_isolation (inp : String → List Resp) (sso_domain : String) (now : Nat)
    (db : DBState) (rtB rtG : String)
    (hB : rtB ∈ REPORT_TYPES) (hG : rtG ∈ REPORT_TYPES) (hne : rtB ≠ rtG)
    (e : PyErr)
    (hpB : process_report rtB sso_domain (get_last_seen_id db.sync rtB) (inp rtB) =
      Except.error e)
    (df : List (List (String × PVal))) (nid : Option String)
    (hpG : process_report rtG sso_domain (get_last_seen_id db.sync rtG) (inp rtG) =
      Except.ok (df, nid)) :
    (mainRun inp sso_domain now db).tables (tableNameOf rtG) =
      (if df.isEmpty then db.tables (tableNameOf rtG)
        else upsert_df (db.tables (tableNameOf rtG))
          ((build_db_dataframe rtG df).map (mkRec rtG))) ∧
    (mainRun inp sso_domain now db).tables (tableNameOf rtB) = db.tables (tableNameOf rtB) ∧
    get_last_seen_id (mainRun inp sso_domain now db).sync rtB =
      get_last_seen_id db.sync rtB := by
  simp only [REPORT_TYPES, List.mem_cons, List.mem_singleton] at hB hG
  rcases hB with hb | hb | hb
  case inr.inr => exact absurd hb (List.not_mem_nil rtB)
  · subst hb
    rcases hG with hg | hg | hg
    case inr.inr => exact absurd hg (List.not_mem_nil rtG)
    · exact absurd (hg ▸ rfl) hne
    · subst hg
      refine ⟨?_, ?_, ?_⟩
      · simp only [mainRun, REPORT_TYPES, List.map_cons, List.map_nil, hpB, hpG,
          save_to_postgres_inc, List.foldl_cons, List.foldl_nil, saveReport, TABLE_MAPPING,
          tableNameOf]
        by_cases hdf : df.isEmpty <;> simp [hdf, updateTable]
      · simp only [mainRun, REPORT_TYPES, List.map_cons, List.map_nil, hpB, hpG,
          save_to_postgres_inc, List.foldl_cons, List.foldl_nil, saveReport, TABLE_MAPPING,
          tableNameOf]
        by_cases hdf : df.isEmpty <;> simp [hdf, updateTable]
      · rcases nid with _ | j
        · simp only [mainRun, REPORT_TYPES, List.map_cons, List.map_nil, List.filterMap_cons,
            List.filterMap_nil, hpB, hpG, List.foldl_cons, List.foldl_nil]
        · by_cases hj : j = ""
          · simp only [mainRun, REPORT_TYPES, List.map_cons, List.map_nil,
              List.filterMap_cons, List.filterMap_nil, hpB, hpG, List.foldl_cons,
              List.foldl_nil]
            rw [if_pos hj]
          · simp only [mainRun, REPORT_TYPES, List.map_cons, List.map_nil,
              List.filterMap_cons, List.filterMap_nil, hpB, hpG, List.foldl_cons,
              List.foldl_nil]
            rw [if_neg hj]
            exact get_set_other _ "phishing" "users" j now (by decide)
  · subst hb
    rcases hG with hg | hg | hg
    case inr.inr => exact absurd hg (List.not_mem_nil rtG)
    · subst hg
      refine ⟨?_, ?_, ?_⟩
      · simp only [mainRun, REPORT_TYPES, List.map_cons, List.map_nil, hpB, hpG,
          save_to_postgres_inc, List.foldl_cons, List.foldl_nil, saveReport, TABLE_MAPPING,
          tableNameOf]
        by_cases hdf : df.isEmpty <;> simp [hdf, updateTable]
      · simp only [mainRun, REPORT_TYPES, List.map_cons, List.map_nil, hpB, hpG,
          save_to_postgres_inc, List.foldl_cons, List.foldl_nil, saveReport, TABLE_MAPPING,
          tableNameOf]
        by_cases hdf : df.isEmpty <;> simp [hdf, updateTable]
      · rcases nid with _ | j
        · simp only [mainRun, REPORT_TYPES, List.map_cons, List.map_nil, List.filterMap_cons,
            List.filterMap_nil, hpB, hpG, List.foldl_cons, List.foldl_nil]
        · by_cases hj : j = ""
          · simp only [mainRun, REPORT_TYPES, List.map_cons, List.map_nil,
              List.filterMap_cons, List.filterMap_nil, hpB, hpG, List.foldl_cons,
              List.foldl_nil]
            rw [if_pos hj]
          · simp only [mainRun, REPORT_TYPES, List.map_cons, List.map_nil,
              List.filterMap_cons, List.filterMap_nil, hpB, hpG, List.foldl_cons,
              List.foldl_nil]
            rw [if_neg hj]
            exact get_set_other _ "users" "phishing" j now (by decide)
    · exact absurd (hg ▸ rfl) hne

/-- Witness for C7: the users fetch raises on a malformed Retry-After
header while the phishing fetch succeeds with one record; the phishing
table receives its upsert, the users table and watermark are untouched. -/
theorem mainRun_isolation_witness :
    (mainRun cInpIso "Org.com" 7 ⟨cTables0, []⟩).tables (tableNameOf "phishing") =
      (if ([[("type", PVal.null), ("id", PVal.s "p1")]] :
            List (List (String × PVal))).isEmpty then
        (⟨cTables0, []⟩ : DBState).tables (tableNameOf "phishing")
      else upsert_df ((⟨cTables0, []⟩ : DBState).tables (tableNameOf "phishing"))
        ((build_db_dataframe "phishing" [[("type", PVal.null), ("id", PVal.s "p1")]]).map
          (mkRec "phishing"))) ∧
    (mainRun cInpIso "Org.com" 7 ⟨cTables0, []⟩).tables (tableNameOf "users") =
      (⟨cTables0, []⟩ : DBState).tables (tableNameOf "users") ∧
    get_last_seen_id (mainRun cInpIso "Org.com" 7 ⟨cTables0, []⟩).sync "users" =
      get_last_seen_id (⟨cTables0, []⟩ : DBState).sync "users" :=
  mainRun_isolation cInpIso "Org.com" 7 ⟨cTables0, []⟩ "users" "phishing" (by decide)
    (by decide) (by decide)
    (PyErr.valueError "invalid literal for int() with base 10: 'x'") rfl
    [[("type", PVal.null), ("id", PVal.s "p1")]] (some "p1") rfl

/-- Lookup after a dict assignment. -/
theorem dictGet_dictSet {α : Type} : ∀ (d : List (String × α)) (k k' : String) (v : α),
    dictGet? (dictSet d k v) k' = if k' = k then some v else dictGet? d k' := by
  intro d
  induction d with
  | nil =>
      intro k k' v
      by_cases h : k' = k
      · simp [dictSet, dictGet?, h]
      · have h2 : ¬k = k' := fun hh => h hh.symm
        simp [dictSet, dictGet?, h, h2]
  | cons p t ih =>
      intro k k' v
      by_cases hpk : p.1 = k
      · by_cases h : k' = k
        · simp [dictSet, hpk, dictGet?, h]
        · have hp' : ¬k = k' := fun hh => h hh.symm
          simp [dictSet, hpk, dictGet?, h, hp']
      · by_cases h : k' = k
        · subst h
          have hp' : ¬p.1 = k' := hpk
          simp [dictSet, hpk, dictGet?, hp', ih]
        · simp only [dictSet, if_neg hpk, dictGet?]
          by_cases hp2 : p.1 = k'
          · simp [hp2, h]
          · simp [hp2, h, ih]

/-- Counterexample to C8 as stated: a section missing dbname (but holding
the other four keys) does not raise — `read_config` forces dbname before
the required-key check — and the returned mapping is not equal to the
section's entries: it carries the forced dbname and an added sso_domain. -/
theorem read_config_counterexample :
    read_config (some cIni) "postgresql" =
      Except.ok [("host", "h"), ("port", "5432"), ("user", "u"), ("password", "p"),
        ("dbname", "Highlands_everest"), ("sso_domain", "Org.com")] ∧
    (dictGet? [("host", "h"), ("port", "5432"), ("user", "u"), ("password", "p")]
        "dbname") = none :=
  ⟨rfl, rfl⟩

/-- C8 (amended): `read_config` raises FileNotFoundError exactly when the
file is absent and the section RuntimeError exactly when the section is
absent; given the section it succeeds if and only if host, port, user and
password are present (dbname missing never raises, since dbname is forced
to Highlands_everest before the check), and the returned mapping is the
section's entries with dbname overwritten and sso_domain added. -/
theorem read_config_spec (file : Option IniFile) (sect : String) :
    (file = none → read_config file sect = Except.error CfgErr.fileNotFound) ∧
    (∀ ini, file = some ini → dictGet? ini.sections sect = none →
      read_config file sect = Except.error (CfgErr.sectionNotFound sect)) ∧
    (∀ ini entries, file = some ini → dictGet? ini.sections sect = some entries →
      (∀ db, read_config file sect = Except.ok db →
        db = dictSet (dictSet entries "dbname" "Highlands_everest") "sso_domain" (ssoOf ini)) ∧
      ((∃ db, read_config file sect = Except.ok db) ↔
        ((dictGet? entries "host").isSome = true ∧ (dictGet? entries "port").isSome = true ∧
          (dictGet? entries "user").isSome = true ∧
          (dictGet? entries "password").isSome = true))) := by
  refine ⟨?_, ?_, ?_⟩
  · intro h
    subst h
    rfl
  · intro ini h hsec
    subst h
    have hkey : read_config (some ini) sect =
        match dictGet? ini.sections sect with
        | none => Except.error (CfgErr.sectionNotFound sect)
        | some entries =>
          let db := dictSet (dictSet entries "dbname" "Highlands_everest") "sso_domain"
            (ssoOf ini)
          match firstMissingParam db with
          | some param => Except.error (CfgErr.missingParam param)
          | none => Except.ok db := rfl
    rw [hkey, hsec]
  · intro ini entries h hsec
    subst h
    have hkey : read_config (some ini) sect =
        match dictGet? ini.sections sect with
        | none => Except.error (CfgErr.sectionNotFound sect)
        | some entries =>
          let db := dictSet (dictSet entries "dbname" "Highlands_everest") "sso_domain"
            (ssoOf ini)
          match firstMissingParam db with
          | some param => Except.error (CfgErr.missingParam param)
          | none => Except.ok db := rfl
    have hred : read_config (some ini) sect =
        match firstMissingParam (dictSet (dictSet entries "dbname" "Highlands_everest")
          "sso_domain" (ssoOf ini)) with
        | some param => Except.error (CfgErr.missingParam param)
        | none => Except.ok (dictSet (dictSet entries "dbname" "Highlands_everest")
            "sso_domain" (ssoOf ini)) := by
      rw [hkey, hsec]
    have hget : ∀ p : String, p ≠ "dbname" → p ≠ "sso_domain" →
        dictGet? (dictSet (dictSet entries "dbname" "Highlands_everest") "sso_domain"
          (ssoOf ini)) p = dictGet? entries p := by
      intro p h1 h2
      rw [dictGet_dictSet, if_neg h2, dictGet_dictSet, if_neg h1]
    have hdb : dictGet? (dictSet (dictSet entries "dbname" "Highlands_everest") "sso_domain"
        (ssoOf ini)) "dbname" = some "Highlands_everest" := by
      rw [dictGet_dictSet, if_neg (by decide), dictGet_dictSet, if_pos rfl]
    have hFiff : firstMissingParam (dictSet (dictSet entries "dbname" "Highlands_everest")
        "sso_domain" (ssoOf ini)) = none ↔
        ((dictGet? entries "host").isSome = true ∧ (dictGet? entries "port").isSome = true ∧
          (dictGet? entries "user").isSome = true ∧
          (dictGet? entries "password").isSome = true) := by
      simp only [firstMissingParam, List.filter_cons, List.filter_nil,
        hget "host" (by decide) (by decide), hget "port" (by decide) (by decide), hdb,
        hget "user" (by decide) (by decide), hget "password" (by decide) (by decide)]
      rcases dictGet? entries "host" with _ | v1 <;>
        rcases dictGet? entries "port" with _ | v2 <;>
          rcases dictGet? entries "user" with _ | v3 <;>
            rcases dictGet? entries "password" with _ | v4 <;> simp
    rcases hF : firstMissingParam (dictSet (dictSet entries "dbname" "Highlands_everest")
        "sso_domain" (ssoOf ini)) with _ | param
    · constructor
      · intro db hdbeq
        rw [hred, hF] at hdbeq
        injection hdbeq with h1
        exact h1.symm
      · constructor
        · intro _
          exact hFiff.mp hF
        · intro _
          exact ⟨_, by rw [hred, hF]⟩
    · constructor
      · intro db hdbeq
        rw [hred, hF] at hdbeq
        exact absurd hdbeq (by simp)
      · constructor
        · intro hex
          obtain ⟨db, hdbeq⟩ := hex
          rw [hred, hF] at hdbeq
          exact absurd hdbeq (by simp)
        · intro hps
          have := hFiff.mpr hps
          rw [hF] at this
          exact absurd this (by simp)

/-- Witness for C8 on a complete concrete config file. -/
theorem read_config_spec_witness :
    ∃ db, read_config (some cIniFull) "postgresql" = Except.ok db :=
  ((read_config_spec (some cIniFull) "postgresql").2.2 cIniFull
    [("host", "h"), ("port", "5432"), ("dbname", "x"), ("user", "u"), ("password", "p")]
    rfl rfl).2.mpr (by decide)

/-- Witness for C2 at a concrete empty table and one-record batch. -/
theorem upsert_df_idempotent_witness :
    upsert_df (upsert_df (fun _ => none) [⟨some "1", "h1", []⟩]) [⟨some "1", "h1", []⟩] =
      upsert_df (fun _ => none) [⟨some "1", "h1", []⟩] :=
  upsert_df_idempotent (fun _ => none) [⟨some "1", "h1", []⟩]
